import Mathlib

/-!
Verification development for `trnpy/misc.py`: the `skopt_optimize`
optimization control loop (source lines 648-914) and the helper
`convert_user_next_ranges` (source lines 917-934).

The loop is embedded shallowly.  Pure pieces (`convert_user_next_ranges`,
the parameter-table construction, the per-round state updates) are
translated directly from the source.  The external collaborators
(the `skopt.Optimizer` engine, the caller's evaluation routine, the
yaml control document on disk) are oracles passed in as functions;
the engine's `ask`/`tell` protocol is modelled from the spec's
description of the external Optimizer Engine (append-only observation
history `Xi`/`yi`, `tell` demanding equal point/value counts,
`result.fun` the best objective observed so far).  Objective values are
modelled as exact integers: the loop never computes with them, it only
compares (`result.fun < tol`), appends and takes minima, so the claims
are insensitive to the numeric carrier.  Each round's observable
effects are recorded in an event trace.
-/

namespace Trnpy

/-- A candidate point: one integer value per search-space dimension
(a row of `next_x`). -/
abbrev Point := List Int

/-- An objective value returned by the evaluation routine. -/
abbrev Value := Int

/-- Extra keyword arguments for the evaluation routine
(`eval_func_kwargs` in the source), modelled as a finite map. -/
abbrev Kwargs := List (String × Int)

/-- Observation history of the external `skopt.Optimizer`
(its `Xi` / `yi` fields, read by the loop at lines 785 and 818). -/
structure SkState where
  Xi : List Point
  yi : List Value
  deriving Repr, DecidableEq

/-- The slice of skopt's `OptimizeResult` the loop reads or writes:
`result.fun` (best objective so far), `result.nit` (set to `count` at
line 819) and `result.success` (set at lines 822/825). -/
structure ResultR where
  fun_ : Value
  nit : Nat
  success : Bool
  deriving Repr, DecidableEq

/-- Minimum of a list of objective values (0 for the empty history,
which the loop never consults). -/
def listMin : List Value → Value
  | [] => 0
  | x :: xs => xs.foldl min x

/-- The pandas DataFrame built at lines 808-809:
`pd.DataFrame.from_records(next_x, columns=sk_optimizer.space.dimension_names)`. -/
structure ParamTable where
  columns : List String
  rows : List Point
  deriving Repr, DecidableEq

/-- Construction of the parameter table (lines 807-812).  pandas raises
when a record's width differs from the number of column names; the
source catches any such exception and skips the round (`continue`). -/
def mkParamTable (records : List Point) (cols : List String) : Except Unit ParamTable :=
  if records.all (fun r => r.length = cols.length) then
    Except.ok ⟨cols, records⟩
  else
    Except.error ()

/-- Modelled from the spec: the external Optimizer Engine's `tell`
(line 818).  It appends the batch to the cumulative observation history
(spec section 3, EvaluationBatch: lengths must match, history grows
monotonically) and reports the best objective value observed so far as
`result.fun`.  A point/value count mismatch is an engine-side
`ValueError`, modelled as `Except.error`. -/
def tell (o : SkState) (xs : List Point) (ys : List Value) :
    Except Unit (SkState × ResultR) :=
  if xs.length = ys.length then
    Except.ok (⟨o.Xi ++ xs, o.yi ++ ys⟩, ⟨listMin (o.yi ++ ys), 0, false⟩)
  else
    Except.error ()

/-- Length of the Python `range(start, stop, step)` for a nonzero step. -/
def rangeLen (start stop step : Int) : Nat :=
  if 0 < step then
    if stop ≤ start then 0 else ((stop - start - 1).toNat / step.toNat) + 1
  else
    if start ≤ stop then 0 else ((start - stop - 1).toNat / (-step).toNat) + 1

/-- The Python `range(start, stop, step)` as a list (nonzero step). -/
def pyRange (start stop step : Int) : List Int :=
  (List.range (rangeLen start stop step)).map (fun i => start + step * (i : Int))

/-- The call `range(*items)` at line 930: one, two or three arguments
select `range(stop)`, `range(start, stop)` or `range(start, stop, step)`;
any other arity is a `TypeError` and a zero step a `ValueError`. -/
def rangeOfArgs : List Int → Except Unit (List Int)
  | [stop] => Except.ok (pyRange 0 stop 1)
  | [start, stop] => Except.ok (pyRange start stop 1)
  | [start, stop, step] =>
    if step = 0 then Except.error () else Except.ok (pyRange start stop step)
  | _ => Except.error ()

/-- `itertools.product(*ranges)` at line 931: Cartesian product with the
rightmost factor varying fastest. -/
def itertoolsProduct : List (List Int) → List (List Int)
  | [] => [[]]
  | r :: rs => r.flatMap (fun x => (itertoolsProduct rs).map (fun tail => x :: tail))

/-- Source lines 917-934 (`convert_user_next_ranges`): build one Python
range per entry and take the product of those ranges; an empty argument
list yields the empty list.  Exceptions raised by `range(*items)`
surface as `Except.error`. -/
def convert_user_next_ranges (args_list : List (List Int)) :
    Except Unit (List (List Int)) :=
  if 0 < args_list.length then
    (args_list.mapM rangeOfArgs).map itertoolsProduct
  else
    Except.ok []

/-- Written from the spec's words for comparison with the code's
expansion: "the Cartesian product of the corresponding integer ranges
in row-major order with the leftmost dimension varying slowest", i.e. a
right fold that prefixes each value of the leftmost range to every
combination of the remaining ranges. -/
def specCartesianProduct (rs : List (List Int)) : List (List Int) :=
  rs.foldr (fun r acc => r.flatMap (fun x => acc.map (fun tail => x :: tail))) [[]]

/-- A triple in standard `range()` notation with a nonzero step, the
form the spec's claim quantifies over. -/
def rangeTriple (t : List Int) : Prop :=
  ∃ a b c, t = [a, b, c] ∧ c ≠ 0

/-- The integer range named by a `(start, stop, step)` triple. -/
def tripleRange (t : List Int) : List Int :=
  pyRange (t.getD 0 0) (t.getD 1 0) (t.getD 2 0)

/-- The yaml control document (`optimizer.yaml`, lines 861-895).  Every
field is optional: `setdefault` supplies a default for a missing key. -/
structure OptDoc where
  n_cores : Option Nat
  user_ask : Option Bool
  user_range_prod : Option (List (List Int))
  eval_func_kwargs : Option Kwargs
  kill : Option Bool
  deriving Repr, DecidableEq

/-- The loop's mutable locals (lines 784-788 and their per-round
updates): the engine handle, `round_`, `count`, `user_next_x`,
`user_ask`, `eval_func_kwargs`, `n_cores`, and the last `tell` result. -/
structure LoopState where
  opt : SkState
  round_ : Nat
  count : Nat
  user_next_x : List Point
  user_ask : Bool
  eval_func_kwargs : Kwargs
  n_cores : Nat
  result : Option ResultR
  deriving Repr, DecidableEq

/-- Configuration fixed for the whole run: the call budget `n_calls`,
the tolerance `tol`, the plots directory (`None` disables the per-round
checkpoint dump at lines 830-832), and the engine's dimension names
(`sk_optimizer.space.dimension_names`), whose count is
`result.space.n_dims`. -/
structure Config where
  n_calls : Nat
  tol : Value
  plots_dir : Option String
  dim_names : List String
  deriving Repr, DecidableEq

/-- The external collaborators, as deterministic oracles: the engine's
`ask` (a function of its observation history and the requested batch
width; for a fixed seed skopt's proposal is such a function, and a
degenerate space makes it raise `ValueError`), the caller's evaluation
routine, and the control-document read for each `round_` value (`none`
when the file is missing, unparsable or not a mapping). -/
structure Externals where
  ask : List Point → List Value → Nat → Except Unit (List Point)
  eval_func : ParamTable → Kwargs → List Value
  readDoc : Nat → Option OptDoc

/-- Uncaught exceptions that escape `skopt_optimize`: the re-raised
`ValueError` from `ask` (lines 802-804), the `ValueError` skopt's
`tell` raises on a point/value count mismatch (line 818, no handler),
and the `TypeError` from `os.path.abspath(None)` at line 841 when
`plots_dir` is `None` and the space has more than one dimension. -/
inductive ErrKind where
  | askValueError
  | tellLengthMismatch
  | abspathNoneTypeError
  deriving Repr, DecidableEq

/-- Trace of a round's observable effects, in source order. -/
inductive Event where
  | roundStarted (round count : Nat)
  | askIssued (n : Nat)
  | proposed (pts : List Point)
  | tableBuilt (t : ParamTable)
  | evalCalled (t : ParamTable) (kwargs : Kwargs)
  | tellDone (xs : List Point) (ys : List Value)
  | checkpointWritten (r : ResultR)
  | diagnosticsDone
  | controlRead (d : OptDoc)
  | controlWritten (d : OptDoc)
  deriving Repr, DecidableEq

/-- Outcome of one iteration of the `while` body. -/
inductive StepOut where
  | continue_ (s : LoopState)
  | converged (s : LoopState)
  | killed (s : LoopState)
  | error_ (k : ErrKind) (s : LoopState)
  deriving Repr, DecidableEq

/-- Outcome of the whole loop. -/
inductive RunOut where
  | exhausted (s : LoopState)
  | converged (s : LoopState)
  | killed (s : LoopState)
  | error_ (k : ErrKind) (s : LoopState)
  | fuelOut (s : LoopState)
  deriving Repr, DecidableEq

/-- Lines 814-815: `round_ += 1; count += len(next_x)`. -/
def bump (s : LoopState) (n : Nat) : LoopState :=
  { s with round_ := s.round_ + 1, count := s.count + n }

/-- Lines 889-895: the document written back, i.e. the read document
after `setdefault` filled the missing keys (`n_cores` from the current
value, `user_range_prod` from `[]`, `eval_func_kwargs` from `{}` only
when `user_ask` is truthy) with `user_ask` and `kill` then reset. -/
def rewriteDoc (nc : Nat) (ua : Bool) (args_list : List (List Int)) (d : OptDoc) : OptDoc :=
  { n_cores := some nc
    user_ask := some false
    user_range_prod := some args_list
    eval_func_kwargs :=
      if ua then some (d.eval_func_kwargs.getD []) else d.eval_func_kwargs
    kill := some false }

/-- Lines 864-884: applying a successfully read document to the loop
locals.  `n_cores` falls back to its current value, `user_ask` to
false; a failing `convert_user_next_ranges` is caught at lines 874-875
leaving `user_next_x` unchanged; `eval_func_kwargs` is taken from the
document only when `user_ask` is truthy, and reset to empty
otherwise. -/
def applyDoc (s : LoopState) (d : OptDoc) : LoopState :=
  { s with
    n_cores := d.n_cores.getD s.n_cores
    user_ask := d.user_ask.getD false
    user_next_x :=
      match convert_user_next_ranges (d.user_range_prod.getD []) with
      | Except.ok v => v
      | Except.error _ => s.user_next_x
    eval_func_kwargs :=
      if d.user_ask.getD false then d.eval_func_kwargs.getD [] else [] }

/-- The rewritten document of lines 889-895 in terms of the state whose
`n_cores` supplies the `setdefault` default. -/
def writtenDoc (s : LoopState) (d : OptDoc) : OptDoc :=
  rewriteDoc (d.n_cores.getD s.n_cores) (d.user_ask.getD false)
    (d.user_range_prod.getD []) d

/-- Lines 858-901: the runtime-control phase.  A failed read makes the
enclosing `try` fall through (`except: pass`) with no state change.  On
a successful read the fields are applied, the document is rewritten
with the transient flags reset, and a truthy `kill` breaks the loop
(lines 897-899).  File writes are modelled as always succeeding; the
source swallows write errors in the same broad `except`. -/
def controlPhase (ext : Externals) (s : LoopState) : List Event × StepOut :=
  match ext.readDoc s.round_ with
  | none => ([], StepOut.continue_ s)
  | some d =>
    ([Event.controlRead d, Event.controlWritten (writtenDoc s d)],
     if d.kill.getD false then StepOut.killed (applyDoc s d)
     else StepOut.continue_ (applyDoc s d))

/-- Lines 828-832: the per-round checkpoint dump happens exactly when a
plots directory is configured. -/
def ckptEvents (cfg : Config) (r2 : ResultR) : List Event :=
  if cfg.plots_dir.isSome then [Event.checkpointWritten r2] else []

/-- Lines 835-856: the plots block runs exactly when the space has more
than one dimension. -/
def diagEvents (cfg : Config) : List Event :=
  if 1 < cfg.dim_names.length then [Event.diagnosticsDone] else []

/-- Lines 819-901 after a successful `tell`: set `nit`, check
convergence (lines 821-825; `break` on success), dump the checkpoint
when a plots directory is configured (lines 828-832), run the plots
block when the space has more than one dimension (lines 835-856; with
no plots directory configured line 841 evaluates
`os.path.abspath(None)` and the `TypeError` escapes), then the
control phase. -/
def postTell (cfg : Config) (ext : Externals) (s : LoopState) (r1 : ResultR) :
    List Event × StepOut :=
  if r1.fun_ < cfg.tol then
    ([], StepOut.converged { s with result := some { r1 with success := true } })
  else
    let r2 : ResultR := { r1 with success := false }
    let s3 : LoopState := { s with result := some r2 }
    if 1 < cfg.dim_names.length ∧ cfg.plots_dir = none then
      (ckptEvents cfg r2, StepOut.error_ ErrKind.abspathNoneTypeError s3)
    else
      (ckptEvents cfg r2 ++ diagEvents cfg ++ (controlPhase ext s3).1,
       (controlPhase ext s3).2)

/-- The loop state right after a successful `tell` of batch `nx` with
values `ny`: counters bumped, history extended. -/
def toldState (s : LoopState) (nx : List Point) (ny : List Value) : LoopState :=
  { bump s nx.length with opt := ⟨s.opt.Xi ++ nx, s.opt.yi ++ ny⟩ }

/-- The `OptimizeResult` slice right after line 819: best value over the
extended history, `nit` set to the bumped `count`. -/
def tellRes (s : LoopState) (nx : List Point) (ny : List Value) : ResultR :=
  ⟨listMin (s.opt.yi ++ ny), s.count + nx.length, false⟩

/-- Lines 807-901 given the chosen batch `next_x`: build the parameter
table (a failure logs and `continue`s, line 812, before the counters
move), increment `round_` and `count` (lines 814-815), evaluate, and
`tell` (an engine `ValueError` from a count mismatch is uncaught).
`ev0` is the trace accumulated while choosing the batch. -/
def stepWith (cfg : Config) (ext : Externals) (s : LoopState)
    (ev0 : List Event) (next_x : List Point) : List Event × StepOut :=
  match mkParamTable next_x cfg.dim_names with
  | Except.error _ => (ev0 ++ [Event.proposed next_x], StepOut.continue_ s)
  | Except.ok param_table =>
    let s1 := bump s next_x.length
    let next_y := ext.eval_func param_table s.eval_func_kwargs
    match tell s.opt next_x next_y with
    | Except.error _ =>
      (ev0 ++ [Event.proposed next_x, Event.tableBuilt param_table,
               Event.evalCalled param_table s.eval_func_kwargs],
       StepOut.error_ ErrKind.tellLengthMismatch s1)
    | Except.ok told =>
      let r1 : ResultR := { told.2 with nit := s1.count }
      (ev0 ++ [Event.proposed next_x, Event.tableBuilt param_table,
               Event.evalCalled param_table s.eval_func_kwargs,
               Event.tellDone next_x next_y]
           ++ (postTell cfg ext { s1 with opt := told.1 } r1).1,
       (postTell cfg ext { s1 with opt := told.1 } r1).2)

/-- One iteration of the `while` body (lines 790-901).  A user-supplied
batch (line 794: `user_ask` truthy and `user_next_x` nonempty) replaces
the engine's `ask`; otherwise `ask(n_points=n_cores)` is called and its
`ValueError` re-raised (lines 799-805). -/
def stepRound (cfg : Config) (ext : Externals) (s : LoopState) :
    List Event × StepOut :=
  if s.user_ask ∧ 0 < s.user_next_x.length then
    stepWith cfg ext s [Event.roundStarted s.round_ s.count] s.user_next_x
  else
    match ext.ask s.opt.Xi s.opt.yi s.n_cores with
    | Except.error _ =>
      ([Event.roundStarted s.round_ s.count, Event.askIssued s.n_cores],
       StepOut.error_ ErrKind.askValueError s)
    | Except.ok pts =>
      stepWith cfg ext s
        [Event.roundStarted s.round_ s.count, Event.askIssued s.n_cores] pts

/-- The `while count < n_calls` loop (line 790), fuel-indexed: each
iteration runs `stepRound`; `continue_` loops, the other outcomes
terminate the run.  Exhausting the fuel is reported separately. -/
def runLoop (cfg : Config) (ext : Externals) : Nat → LoopState → List Event × RunOut
  | 0, s => ([], RunOut.fuelOut s)
  | fuel + 1, s =>
    if s.count < cfg.n_calls then
      match stepRound cfg ext s with
      | (ev, StepOut.continue_ s') =>
        (ev ++ (runLoop cfg ext fuel s').1, (runLoop cfg ext fuel s').2)
      | (ev, StepOut.converged s') => (ev, RunOut.converged s')
      | (ev, StepOut.killed s') => (ev, RunOut.killed s')
      | (ev, StepOut.error_ k s') => (ev, RunOut.error_ k s')
    else
      ([], RunOut.exhausted s)

/-- Lines 784-788: the locals before the first round.  `count` starts
at the length of the (possibly checkpoint-loaded) observation history
`Xi`; `user_next_x` is empty, `user_ask` false, `eval_func_kwargs`
empty. -/
def initState (loadedXi : List Point) (loadedYi : List Value) (n_cores : Nat) :
    LoopState :=
  { opt := ⟨loadedXi, loadedYi⟩, round_ := 1, count := loadedXi.length,
    user_next_x := [], user_ask := false, eval_func_kwargs := [],
    n_cores := n_cores, result := none }

/-- The loop state carried by a non-error run outcome. -/
def RunOut.state? : RunOut → Option LoopState
  | RunOut.exhausted s => some s
  | RunOut.converged s => some s
  | RunOut.killed s => some s
  | RunOut.fuelOut s => some s
  | RunOut.error_ _ _ => none

/-- The sequence of proposed batches recorded in a trace. -/
def proposals (ev : List Event) : List (List Point) :=
  ev.filterMap (fun e => match e with | Event.proposed pts => some pts | _ => none)

/-- Total number of evaluated points recorded by the `tell` events of a
trace. -/
def batchSum (ev : List Event) : Nat :=
  (ev.map (fun e => match e with | Event.tellDone xs _ => xs.length | _ => 0)).sum

/-- The document of the last successful control read in a trace, `r0`
when the trace has none. -/
def lastReadD (r0 : Option OptDoc) (ev : List Event) : Option OptDoc :=
  ev.foldl (fun acc e => match e with | Event.controlRead d => some d | _ => acc) r0

/-- The `eval_func_kwargs` value the loop holds after consuming a given
control read: empty before any read, empty after a read whose
`user_ask` is not truthy, the document's kwargs otherwise
(lines 880-884). -/
def kwargsOf : Option OptDoc → Kwargs
  | none => []
  | some d => if d.user_ask.getD false then d.eval_func_kwargs.getD [] else []

/-- A control read that carries no operator override: absent document,
or one whose fields (where present) hold the run's current core count
and the transient defaults. -/
def NoOverrideRead (nc : Nat) : Option OptDoc → Prop
  | none => True
  | some d =>
    (d.n_cores = none ∨ d.n_cores = some nc) ∧
    (d.user_ask = none ∨ d.user_ask = some false) ∧
    (d.user_range_prod = none ∨ d.user_range_prod = some []) ∧
    (d.kill = none ∨ d.kill = some false)

/-- Loop state free of operator influence: no pending user batch, no
extra kwargs, the configured core count. -/
def NoOverrideState (nc : Nat) (s : LoopState) : Prop :=
  s.user_ask = false ∧ s.user_next_x = [] ∧ s.eval_func_kwargs = [] ∧ s.n_cores = nc

/-! Concrete oracles and configurations used by the witness runs. -/

/-- An engine over one dimension that always proposes the origin. -/
def ask1 : List Point → List Value → Nat → Except Unit (List Point) :=
  fun _ _ n => Except.ok (List.replicate n [0])

/-- An engine over two dimensions that always proposes the origin. -/
def ask2 : List Point → List Value → Nat → Except Unit (List Point) :=
  fun _ _ n => Except.ok (List.replicate n [0, 0])

/-- An engine whose `ask` always raises (degenerate space). -/
def askFail : List Point → List Value → Nat → Except Unit (List Point) :=
  fun _ _ _ => Except.error ()

/-- An evaluation routine returning objective 5 per row. -/
def evalHigh : ParamTable → Kwargs → List Value :=
  fun t _ => t.rows.map (fun _ => 5)

/-- An evaluation routine returning objective 0 per row. -/
def evalLow : ParamTable → Kwargs → List Value :=
  fun t _ => t.rows.map (fun _ => 0)

/-- A contract-violating evaluation routine returning no values. -/
def evalNone : ParamTable → Kwargs → List Value :=
  fun _ _ => []

/-- A control-document oracle for an absent `optimizer.yaml`. -/
def readAbsent : Nat → Option OptDoc := fun _ => none

/-- A control document requesting termination. -/
def docKill : OptDoc := ⟨none, none, none, none, some true⟩

/-- A control-document oracle that always requests termination. -/
def readKill : Nat → Option OptDoc := fun _ => some docKill

/-- A fully default-valued control document for a 1-core run. -/
def docDefault1 : OptDoc := ⟨some 1, some false, some [], none, some false⟩

/-- A control-document oracle returning the default document. -/
def readDefault1 : Nat → Option OptDoc := fun _ => some docDefault1

/-- A control document enabling `user_ask` with extra kwargs. -/
def docKw : OptDoc := ⟨none, some true, none, some [("mode", 2)], none⟩

/-- A control-document oracle returning the kwargs document. -/
def readKw : Nat → Option OptDoc := fun _ => some docKw

def extKill : Externals := ⟨ask2, evalHigh, readKill⟩

def extConv : Externals := ⟨ask1, evalLow, readAbsent⟩

def extMismatch : Externals := ⟨ask1, evalNone, readAbsent⟩

def extCrash : Externals := ⟨ask2, evalHigh, readAbsent⟩

def extPlain : Externals := ⟨ask1, evalHigh, readAbsent⟩

def extDefault : Externals := ⟨ask1, evalHigh, readDefault1⟩

def extAskFail : Externals := ⟨askFail, evalHigh, readAbsent⟩

def extKw : Externals := ⟨ask1, evalHigh, readKw⟩

/-- One dimension, budget 4, tolerance 1, plots directory set. -/
def cfg1 : Config := ⟨4, 1, some "R", ["x"]⟩

/-- Two dimensions, budget 4, tolerance 0, plots directory set. -/
def cfg2 : Config := ⟨4, 0, some "R", ["a", "b"]⟩

/-- One dimension, budget 3, tolerance 0, plots directory set. -/
def cfg3 : Config := ⟨3, 0, some "R", ["x"]⟩

/-- Two dimensions, tolerance 0, and no plots directory: the
configuration under which line 841 evaluates `os.path.abspath(None)`. -/
def cfgCrash : Config := ⟨5, 0, none, ["a", "b"]⟩

/-- One dimension, budget 2, tolerance 0, plots directory set. -/
def cfgC10 : Config := ⟨2, 0, some "R", ["x"]⟩

/-- The state after a full non-converged round, before the control
phase: counters bumped, history told, `result` holding the round's
`OptimizeResult` with `success = False` (line 825). -/
def postState (s : LoopState) (nx : List Point) (ny : List Value) : LoopState :=
  { toldState s nx ny with result := some { tellRes s nx ny with success := false } }

/-- The state in which the loop `break`s at line 823: counters bumped,
history told, `result.success = True`. -/
def convState (s : LoopState) (nx : List Point) (ny : List Value) : LoopState :=
  { toldState s nx ny with result := some { tellRes s nx ny with success := true } }

/-- The events of one full round up to and including `tell`. -/
def roundEvents (ev0 : List Event) (nx : List Point) (tbl : ParamTable)
    (kw : Kwargs) (ny : List Value) : List Event :=
  ev0 ++ [Event.proposed nx, Event.tableBuilt tbl, Event.evalCalled tbl kw,
          Event.tellDone nx ny]

/-! ### General lemmas about the range-product expansion -/

theorem itertools_eq_spec (rs : List (List Int)) :
    itertoolsProduct rs = specCartesianProduct rs := by
  induction rs with
  | nil => rfl
  | cons r rs ih =>
    simp only [itertoolsProduct, specCartesianProduct, List.foldr_cons]
    rw [ih]
    rfl

theorem flatMap_getD {α β : Type} (da : α) (db : β) :
    ∀ (l : List α) (g : α → List β) (m : Nat),
      (∀ a ∈ l, (g a).length = m) →
      ∀ i j, i < l.length → j < m →
        (l.flatMap g).getD (i * m + j) db = (g (l.getD i da)).getD j db := by
  intro l
  induction l with
  | nil => intro g m hg i j hi hj; cases hi
  | cons a l ih =>
    intro g m hg i j hi hj
    have ha : (g a).length = m := hg a (List.mem_cons_self a l)
    cases i with
    | zero =>
      simp only [List.flatMap_cons, Nat.zero_mul, Nat.zero_add, List.getD_eq_getElem?_getD]
      rw [List.getElem?_append_left (by rw [ha]; exact hj)]
      simp
    | succ i =>
      have hidx : (i + 1) * m + j = (g a).length + (i * m + j) := by
        rw [ha]; ring
      simp only [List.flatMap_cons, List.getD_eq_getElem?_getD, hidx]
      rw [List.getElem?_append_right (Nat.le_add_right _ _), Nat.add_sub_cancel_left]
      have := ih g m (fun b hb => hg b (List.mem_cons_of_mem a hb)) i j
        (Nat.lt_of_succ_lt_succ hi) hj
      simpa [List.getD_eq_getElem?_getD] using this

theorem mapM_triples (args_list : List (List Int))
    (h : ∀ t ∈ args_list, rangeTriple t) :
    args_list.mapM rangeOfArgs = Except.ok (args_list.map tripleRange) := by
  induction args_list with
  | nil => rfl
  | cons t ts ih =>
    obtain ⟨a, b, c, ht, hc⟩ := h t (List.mem_cons_self t ts)
    subst ht
    have h1 : rangeOfArgs [a, b, c] = Except.ok (pyRange a b c) := by
      simp [rangeOfArgs, hc]
    have h2 : tripleRange [a, b, c] = pyRange a b c := rfl
    rw [List.mapM_cons, List.map_cons, h1, h2,
      ih (fun u hu => h u (List.mem_cons_of_mem _ hu))]
    rfl

/-- C5: for every list of per-dimension integer range triples
`(start, stop, step)`, `convert_user_next_ranges` returns the Cartesian
product of the corresponding integer ranges in row-major order with the
leftmost dimension varying slowest; in particular `[[0,3,1],[10,12,1]]`
yields exactly `[(0,10),(0,11),(1,10),(1,11),(2,10),(2,11)]` and the
empty input yields the empty list.  The row-major order is pinned down
by the indexing law in the last conjunct: entry `i*m + j` of the
product pairs the `i`-th value of the leftmost range with the `j`-th
combination of the remaining ranges. -/
theorem c5_range_product_expansion :
    convert_user_next_ranges [[0, 3, 1], [10, 12, 1]] =
      Except.ok [[0, 10], [0, 11], [1, 10], [1, 11], [2, 10], [2, 11]] ∧
    convert_user_next_ranges [] = Except.ok [] ∧
    (∀ args_list : List (List Int), args_list ≠ [] →
      (∀ t ∈ args_list, rangeTriple t) →
      convert_user_next_ranges args_list =
        Except.ok (specCartesianProduct (args_list.map tripleRange))) ∧
    (∀ (r : List Int) (rs : List (List Int)) (i j : Nat),
      i < r.length → j < (specCartesianProduct rs).length →
      (specCartesianProduct (r :: rs)).getD
          (i * (specCartesianProduct rs).length + j) [] =
        r.getD i 0 :: (specCartesianProduct rs).getD j []) := by
  refine ⟨by rfl, by rfl, ?_, ?_⟩
  · intro args_list hne ht
    have hlen : 0 < args_list.length := List.length_pos.mpr hne
    rw [convert_user_next_ranges, if_pos hlen, mapM_triples args_list ht]
    show Except.ok (itertoolsProduct (args_list.map tripleRange)) = _
    rw [itertools_eq_spec]
  · intro r rs i j hi hj
    show (r.flatMap fun x => (specCartesianProduct rs).map fun tail => x :: tail).getD
        (i * (specCartesianProduct rs).length + j) [] = _
    have hm : ∀ a ∈ r,
        (((specCartesianProduct rs).map fun tail => a :: tail)).length =
          (specCartesianProduct rs).length := by
      intro a _; exact List.length_map _ _
    rw [flatMap_getD 0 [] r _ _ hm i j hi hj]
    simp only [List.getD_eq_getElem?_getD, List.getElem?_map,
      List.getElem?_eq_getElem hj]
    rfl

/-- Witness for C5: the general product law applied at the concrete
two-triple input of the claim. -/
theorem c5_range_product_expansion_witness :
    convert_user_next_ranges [[0, 3, 1], [10, 12, 1]] =
      Except.ok (specCartesianProduct ([[0, 3, 1], [10, 12, 1]].map tripleRange)) :=
  c5_range_product_expansion.2.2.1 [[0, 3, 1], [10, 12, 1]]
    (by decide)
    (by
      intro t ht
      simp only [List.mem_cons, List.not_mem_nil, or_false] at ht
      rcases ht with h | h
      · exact ⟨0, 3, 1, h, by decide⟩
      · exact ⟨10, 12, 1, h, by decide⟩)

/-! ### Inversion lemmas for one iteration of the loop body -/

theorem controlPhase_cases (ext : Externals) (s : LoopState) :
    (ext.readDoc s.round_ = none ∧ controlPhase ext s = ([], StepOut.continue_ s)) ∨
    (∃ d, ext.readDoc s.round_ = some d ∧
      controlPhase ext s =
        ([Event.controlRead d, Event.controlWritten (writtenDoc s d)],
         if d.kill.getD false then StepOut.killed (applyDoc s d)
         else StepOut.continue_ (applyDoc s d))) := by
  cases h : ext.readDoc s.round_ with
  | none => exact Or.inl ⟨rfl, by simp [controlPhase, h]⟩
  | some d => exact Or.inr ⟨d, rfl, by simp [controlPhase, h]⟩

theorem postTell_cases (cfg : Config) (ext : Externals) (s : LoopState) (r1 : ResultR) :
    (r1.fun_ < cfg.tol ∧
      postTell cfg ext s r1 =
        ([], StepOut.converged { s with result := some { r1 with success := true } })) ∨
    (¬ r1.fun_ < cfg.tol ∧ (1 < cfg.dim_names.length ∧ cfg.plots_dir = none) ∧
      postTell cfg ext s r1 =
        (ckptEvents cfg { r1 with success := false },
         StepOut.error_ ErrKind.abspathNoneTypeError
           { s with result := some { r1 with success := false } })) ∨
    (¬ r1.fun_ < cfg.tol ∧ ¬ (1 < cfg.dim_names.length ∧ cfg.plots_dir = none) ∧
      postTell cfg ext s r1 =
        (ckptEvents cfg { r1 with success := false } ++ diagEvents cfg ++
           (controlPhase ext { s with result := some { r1 with success := false } }).1,
         (controlPhase ext { s with result := some { r1 with success := false } }).2)) := by
  by_cases h1 : r1.fun_ < cfg.tol
  · exact Or.inl ⟨h1, by simp [postTell, h1]⟩
  · by_cases h2 : 1 < cfg.dim_names.length ∧ cfg.plots_dir = none
    · exact Or.inr (Or.inl ⟨h1, h2, by simp [postTell, h1, h2.1, h2.2]⟩)
    · exact Or.inr (Or.inr ⟨h1, h2, by simp [postTell, h1, h2]⟩)

theorem stepWith_cases (cfg : Config) (ext : Externals) (s : LoopState)
    (ev0 : List Event) (nx : List Point) :
    (mkParamTable nx cfg.dim_names = Except.error () ∧
      stepWith cfg ext s ev0 nx = (ev0 ++ [Event.proposed nx], StepOut.continue_ s)) ∨
    (∃ tbl, mkParamTable nx cfg.dim_names = Except.ok tbl ∧
      nx.length ≠ (ext.eval_func tbl s.eval_func_kwargs).length ∧
      stepWith cfg ext s ev0 nx =
        (ev0 ++ [Event.proposed nx, Event.tableBuilt tbl,
                 Event.evalCalled tbl s.eval_func_kwargs],
         StepOut.error_ ErrKind.tellLengthMismatch (bump s nx.length))) ∨
    (∃ tbl, mkParamTable nx cfg.dim_names = Except.ok tbl ∧
      nx.length = (ext.eval_func tbl s.eval_func_kwargs).length ∧
      stepWith cfg ext s ev0 nx =
        (ev0 ++ [Event.proposed nx, Event.tableBuilt tbl,
                 Event.evalCalled tbl s.eval_func_kwargs,
                 Event.tellDone nx (ext.eval_func tbl s.eval_func_kwargs)] ++
           (postTell cfg ext (toldState s nx (ext.eval_func tbl s.eval_func_kwargs))
              (tellRes s nx (ext.eval_func tbl s.eval_func_kwargs))).1,
         (postTell cfg ext (toldState s nx (ext.eval_func tbl s.eval_func_kwargs))
            (tellRes s nx (ext.eval_func tbl s.eval_func_kwargs))).2)) := by
  cases hmk : mkParamTable nx cfg.dim_names with
  | error e =>
    cases e
    exact Or.inl ⟨rfl, by simp [stepWith, hmk]⟩
  | ok tbl =>
    by_cases hlen : nx.length = (ext.eval_func tbl s.eval_func_kwargs).length
    · refine Or.inr (Or.inr ⟨tbl, rfl, hlen, ?_⟩)
      simp [stepWith, hmk, tell, hlen, toldState, tellRes, bump]
    · refine Or.inr (Or.inl ⟨tbl, rfl, hlen, ?_⟩)
      simp [stepWith, hmk, tell, hlen]

theorem stepRound_cases (cfg : Config) (ext : Externals) (s : LoopState) :
    ((s.user_ask = true ∧ 0 < s.user_next_x.length) ∧
      stepRound cfg ext s =
        stepWith cfg ext s [Event.roundStarted s.round_ s.count] s.user_next_x) ∨
    (¬ (s.user_ask = true ∧ 0 < s.user_next_x.length) ∧
      ext.ask s.opt.Xi s.opt.yi s.n_cores = Except.error () ∧
      stepRound cfg ext s =
        ([Event.roundStarted s.round_ s.count, Event.askIssued s.n_cores],
         StepOut.error_ ErrKind.askValueError s)) ∨
    (∃ pts, ¬ (s.user_ask = true ∧ 0 < s.user_next_x.length) ∧
      ext.ask s.opt.Xi s.opt.yi s.n_cores = Except.ok pts ∧
      stepRound cfg ext s =
        stepWith cfg ext s
          [Event.roundStarted s.round_ s.count, Event.askIssued s.n_cores] pts) := by
  by_cases hu : s.user_ask = true ∧ 0 < s.user_next_x.length
  · exact Or.inl ⟨hu, by simp [stepRound, hu.1, hu.2]⟩
  · cases hask : ext.ask s.opt.Xi s.opt.yi s.n_cores with
    | error e =>
      cases e
      exact Or.inr (Or.inl ⟨hu, rfl, by simp [stepRound, hu, hask]⟩)
    | ok pts =>
      exact Or.inr (Or.inr ⟨pts, hu, rfl, by simp [stepRound, hu, hask]⟩)

theorem postState_round_ (s : LoopState) (nx : List Point) (ny : List Value) :
    (postState s nx ny).round_ = s.round_ + 1 := rfl

/-- Master inversion: one iteration of the loop body given the chosen
batch, enumerated into its six leaves (table failure, `tell` length
mismatch, convergence, the `abspath(None)` crash, control phase on a
missing document, control phase on a read document). -/
theorem stepWith_master (cfg : Config) (ext : Externals) (s : LoopState)
    (ev0 : List Event) (nx : List Point) :
    (mkParamTable nx cfg.dim_names = Except.error () ∧
      stepWith cfg ext s ev0 nx = (ev0 ++ [Event.proposed nx], StepOut.continue_ s)) ∨
    (∃ tbl, mkParamTable nx cfg.dim_names = Except.ok tbl ∧
      nx.length ≠ (ext.eval_func tbl s.eval_func_kwargs).length ∧
      stepWith cfg ext s ev0 nx =
        (ev0 ++ [Event.proposed nx, Event.tableBuilt tbl,
                 Event.evalCalled tbl s.eval_func_kwargs],
         StepOut.error_ ErrKind.tellLengthMismatch (bump s nx.length))) ∨
    (∃ tbl, mkParamTable nx cfg.dim_names = Except.ok tbl ∧
      nx.length = (ext.eval_func tbl s.eval_func_kwargs).length ∧
      (tellRes s nx (ext.eval_func tbl s.eval_func_kwargs)).fun_ < cfg.tol ∧
      stepWith cfg ext s ev0 nx =
        (roundEvents ev0 nx tbl s.eval_func_kwargs (ext.eval_func tbl s.eval_func_kwargs),
         StepOut.converged (convState s nx (ext.eval_func tbl s.eval_func_kwargs)))) ∨
    (∃ tbl, mkParamTable nx cfg.dim_names = Except.ok tbl ∧
      nx.length = (ext.eval_func tbl s.eval_func_kwargs).length ∧
      ¬ (tellRes s nx (ext.eval_func tbl s.eval_func_kwargs)).fun_ < cfg.tol ∧
      (1 < cfg.dim_names.length ∧ cfg.plots_dir = none) ∧
      stepWith cfg ext s ev0 nx =
        (roundEvents ev0 nx tbl s.eval_func_kwargs (ext.eval_func tbl s.eval_func_kwargs) ++
           ckptEvents cfg { tellRes s nx (ext.eval_func tbl s.eval_func_kwargs) with success := false },
         StepOut.error_ ErrKind.abspathNoneTypeError
           (postState s nx (ext.eval_func tbl s.eval_func_kwargs)))) ∨
    (∃ tbl, mkParamTable nx cfg.dim_names = Except.ok tbl ∧
      nx.length = (ext.eval_func tbl s.eval_func_kwargs).length ∧
      ¬ (tellRes s nx (ext.eval_func tbl s.eval_func_kwargs)).fun_ < cfg.tol ∧
      ¬ (1 < cfg.dim_names.length ∧ cfg.plots_dir = none) ∧
      ext.readDoc (s.round_ + 1) = none ∧
      stepWith cfg ext s ev0 nx =
        (roundEvents ev0 nx tbl s.eval_func_kwargs (ext.eval_func tbl s.eval_func_kwargs) ++
           ckptEvents cfg { tellRes s nx (ext.eval_func tbl s.eval_func_kwargs) with success := false } ++
           diagEvents cfg,
         StepOut.continue_ (postState s nx (ext.eval_func tbl s.eval_func_kwargs)))) ∨
    (∃ tbl d, mkParamTable nx cfg.dim_names = Except.ok tbl ∧
      nx.length = (ext.eval_func tbl s.eval_func_kwargs).length ∧
      ¬ (tellRes s nx (ext.eval_func tbl s.eval_func_kwargs)).fun_ < cfg.tol ∧
      ¬ (1 < cfg.dim_names.length ∧ cfg.plots_dir = none) ∧
      ext.readDoc (s.round_ + 1) = some d ∧
      stepWith cfg ext s ev0 nx =
        (roundEvents ev0 nx tbl s.eval_func_kwargs (ext.eval_func tbl s.eval_func_kwargs) ++
           ckptEvents cfg { tellRes s nx (ext.eval_func tbl s.eval_func_kwargs) with success := false } ++
           diagEvents cfg ++
           [Event.controlRead d,
            Event.controlWritten (writtenDoc (postState s nx (ext.eval_func tbl s.eval_func_kwargs)) d)],
         if d.kill.getD false then
           StepOut.killed (applyDoc (postState s nx (ext.eval_func tbl s.eval_func_kwargs)) d)
         else
           StepOut.continue_ (applyDoc (postState s nx (ext.eval_func tbl s.eval_func_kwargs)) d))) := by
  rcases stepWith_cases cfg ext s ev0 nx with
    ⟨hmk, heq⟩ | ⟨tbl, hmk, hlen, heq⟩ | ⟨tbl, hmk, hlen, heq⟩
  · exact Or.inl ⟨hmk, heq⟩
  · exact Or.inr (Or.inl ⟨tbl, hmk, hlen, heq⟩)
  · set ny := ext.eval_func tbl s.eval_func_kwargs with hny
    rcases postTell_cases cfg ext (toldState s nx ny) (tellRes s nx ny) with
      ⟨hc, hpt⟩ | ⟨hc, hcr, hpt⟩ | ⟨hc, hcr, hpt⟩
    · refine Or.inr (Or.inr (Or.inl ⟨tbl, hmk, hlen, hc, ?_⟩))
      rw [heq, hpt]
      simp [roundEvents, convState, List.append_assoc]
    · refine Or.inr (Or.inr (Or.inr (Or.inl ⟨tbl, hmk, hlen, hc, hcr, ?_⟩)))
      rw [heq, hpt]
      simp [roundEvents, postState, List.append_assoc]
    · rcases controlPhase_cases ext
        { toldState s nx ny with result := some { tellRes s nx ny with success := false } } with
        ⟨hrd, hcp⟩ | ⟨d, hrd, hcp⟩
      · refine Or.inr (Or.inr (Or.inr (Or.inr (Or.inl ⟨tbl, hmk, hlen, hc, hcr, ?_, ?_⟩))))
        · exact hrd
        · rw [heq, hpt, hcp]
          simp [roundEvents, postState, List.append_assoc]
      · refine Or.inr (Or.inr (Or.inr (Or.inr (Or.inr ⟨tbl, d, hmk, hlen, hc, hcr, ?_, ?_⟩))))
        · exact hrd
        · rw [heq, hpt, hcp]
          simp [roundEvents, postState, List.append_assoc]

/-- Master inversion for a whole iteration, with the outcome equalities
exposed: either `ask` fails and the `ValueError` propagates, or the
batch is chosen (user override or `ask`) and the round runs through one
of the six `stepWith_master` leaves. -/
theorem stepRound_master {cfg : Config} {ext : Externals} {s : LoopState}
    {ev : List Event} {out : StepOut} (h : stepRound cfg ext s = (ev, out)) :
    (¬ (s.user_ask = true ∧ 0 < s.user_next_x.length) ∧
      ext.ask s.opt.Xi s.opt.yi s.n_cores = Except.error () ∧
      ev = [Event.roundStarted s.round_ s.count, Event.askIssued s.n_cores] ∧
      out = StepOut.error_ ErrKind.askValueError s) ∨
    (∃ ev0 nx,
      ((ev0 = [Event.roundStarted s.round_ s.count] ∧
          s.user_ask = true ∧ 0 < s.user_next_x.length ∧ nx = s.user_next_x) ∨
       (ev0 = [Event.roundStarted s.round_ s.count, Event.askIssued s.n_cores] ∧
          ¬ (s.user_ask = true ∧ 0 < s.user_next_x.length) ∧
          ext.ask s.opt.Xi s.opt.yi s.n_cores = Except.ok nx)) ∧
      ((mkParamTable nx cfg.dim_names = Except.error () ∧
          ev = ev0 ++ [Event.proposed nx] ∧ out = StepOut.continue_ s) ∨
       (∃ tbl, mkParamTable nx cfg.dim_names = Except.ok tbl ∧
          nx.length ≠ (ext.eval_func tbl s.eval_func_kwargs).length ∧
          ev = ev0 ++ [Event.proposed nx, Event.tableBuilt tbl,
                       Event.evalCalled tbl s.eval_func_kwargs] ∧
          out = StepOut.error_ ErrKind.tellLengthMismatch (bump s nx.length)) ∨
       (∃ tbl, mkParamTable nx cfg.dim_names = Except.ok tbl ∧
          nx.length = (ext.eval_func tbl s.eval_func_kwargs).length ∧
          (tellRes s nx (ext.eval_func tbl s.eval_func_kwargs)).fun_ < cfg.tol ∧
          ev = roundEvents ev0 nx tbl s.eval_func_kwargs
                 (ext.eval_func tbl s.eval_func_kwargs) ∧
          out = StepOut.converged (convState s nx (ext.eval_func tbl s.eval_func_kwargs))) ∨
       (∃ tbl, mkParamTable nx cfg.dim_names = Except.ok tbl ∧
          nx.length = (ext.eval_func tbl s.eval_func_kwargs).length ∧
          ¬ (tellRes s nx (ext.eval_func tbl s.eval_func_kwargs)).fun_ < cfg.tol ∧
          (1 < cfg.dim_names.length ∧ cfg.plots_dir = none) ∧
          ev = roundEvents ev0 nx tbl s.eval_func_kwargs
                 (ext.eval_func tbl s.eval_func_kwargs) ++
               ckptEvents cfg { tellRes s nx (ext.eval_func tbl s.eval_func_kwargs) with
                                success := false } ∧
          out = StepOut.error_ ErrKind.abspathNoneTypeError
                  (postState s nx (ext.eval_func tbl s.eval_func_kwargs))) ∨
       (∃ tbl, mkParamTable nx cfg.dim_names = Except.ok tbl ∧
          nx.length = (ext.eval_func tbl s.eval_func_kwargs).length ∧
          ¬ (tellRes s nx (ext.eval_func tbl s.eval_func_kwargs)).fun_ < cfg.tol ∧
          ¬ (1 < cfg.dim_names.length ∧ cfg.plots_dir = none) ∧
          ext.readDoc (s.round_ + 1) = none ∧
          ev = roundEvents ev0 nx tbl s.eval_func_kwargs
                 (ext.eval_func tbl s.eval_func_kwargs) ++
               ckptEvents cfg { tellRes s nx (ext.eval_func tbl s.eval_func_kwargs) with
                                success := false } ++
               diagEvents cfg ∧
          out = StepOut.continue_ (postState s nx (ext.eval_func tbl s.eval_func_kwargs))) ∨
       (∃ tbl d, mkParamTable nx cfg.dim_names = Except.ok tbl ∧
          nx.length = (ext.eval_func tbl s.eval_func_kwargs).length ∧
          ¬ (tellRes s nx (ext.eval_func tbl s.eval_func_kwargs)).fun_ < cfg.tol ∧
          ¬ (1 < cfg.dim_names.length ∧ cfg.plots_dir = none) ∧
          ext.readDoc (s.round_ + 1) = some d ∧
          ev = roundEvents ev0 nx tbl s.eval_func_kwargs
                 (ext.eval_func tbl s.eval_func_kwargs) ++
               ckptEvents cfg { tellRes s nx (ext.eval_func tbl s.eval_func_kwargs) with
                                success := false } ++
               diagEvents cfg ++
               [Event.controlRead d,
                Event.controlWritten
                  (writtenDoc (postState s nx (ext.eval_func tbl s.eval_func_kwargs)) d)] ∧
          out = if d.kill.getD false then
                  StepOut.killed (applyDoc (postState s nx (ext.eval_func tbl s.eval_func_kwargs)) d)
                else
                  StepOut.continue_
                    (applyDoc (postState s nx (ext.eval_func tbl s.eval_func_kwargs)) d)))) := by
  have hpair : ∀ {E : List Event} {O : StepOut},
      stepRound cfg ext s = (E, O) → ev = E ∧ out = O := by
    intro E O hEO
    have := h.symm.trans hEO
    exact ⟨congrArg Prod.fst this, congrArg Prod.snd this⟩
  rcases stepRound_cases cfg ext s with
    ⟨hu, heq⟩ | ⟨hu, hask, heq⟩ | ⟨pts, hu, hask, heq⟩
  · refine Or.inr ⟨[Event.roundStarted s.round_ s.count], s.user_next_x,
      Or.inl ⟨rfl, hu.1, hu.2, rfl⟩, ?_⟩
    rcases stepWith_master cfg ext s [Event.roundStarted s.round_ s.count] s.user_next_x with
      ⟨h1, h2⟩ | ⟨tbl, h1, h2, h3⟩ | ⟨tbl, h1, h2, h3, h4⟩ | ⟨tbl, h1, h2, h3, h4, h5⟩ |
      ⟨tbl, h1, h2, h3, h4, h5, h6⟩ | ⟨tbl, d, h1, h2, h3, h4, h5, h6⟩
    · obtain ⟨he, ho⟩ := hpair (heq.trans h2)
      exact Or.inl ⟨h1, he, ho⟩
    · obtain ⟨he, ho⟩ := hpair (heq.trans h3)
      exact Or.inr (Or.inl ⟨tbl, h1, h2, he, ho⟩)
    · obtain ⟨he, ho⟩ := hpair (heq.trans h4)
      exact Or.inr (Or.inr (Or.inl ⟨tbl, h1, h2, h3, he, ho⟩))
    · obtain ⟨he, ho⟩ := hpair (heq.trans h5)
      exact Or.inr (Or.inr (Or.inr (Or.inl ⟨tbl, h1, h2, h3, h4, he, ho⟩)))
    · obtain ⟨he, ho⟩ := hpair (heq.trans h6)
      exact Or.inr (Or.inr (Or.inr (Or.inr (Or.inl ⟨tbl, h1, h2, h3, h4, h5, he, ho⟩))))
    · obtain ⟨he, ho⟩ := hpair (heq.trans h6)
      exact Or.inr (Or.inr (Or.inr (Or.inr (Or.inr ⟨tbl, d, h1, h2, h3, h4, h5, he, ho⟩))))
  · obtain ⟨he, ho⟩ := hpair heq
    exact Or.inl ⟨hu, hask, he, ho⟩
  · refine Or.inr ⟨[Event.roundStarted s.round_ s.count, Event.askIssued s.n_cores], pts,
      Or.inr ⟨rfl, hu, hask⟩, ?_⟩
    rcases stepWith_master cfg ext s
        [Event.roundStarted s.round_ s.count, Event.askIssued s.n_cores] pts with
      ⟨h1, h2⟩ | ⟨tbl, h1, h2, h3⟩ | ⟨tbl, h1, h2, h3, h4⟩ | ⟨tbl, h1, h2, h3, h4, h5⟩ |
      ⟨tbl, h1, h2, h3, h4, h5, h6⟩ | ⟨tbl, d, h1, h2, h3, h4, h5, h6⟩
    · obtain ⟨he, ho⟩ := hpair (heq.trans h2)
      exact Or.inl ⟨h1, he, ho⟩
    · obtain ⟨he, ho⟩ := hpair (heq.trans h3)
      exact Or.inr (Or.inl ⟨tbl, h1, h2, he, ho⟩)
    · obtain ⟨he, ho⟩ := hpair (heq.trans h4)
      exact Or.inr (Or.inr (Or.inl ⟨tbl, h1, h2, h3, he, ho⟩))
    · obtain ⟨he, ho⟩ := hpair (heq.trans h5)
      exact Or.inr (Or.inr (Or.inr (Or.inl ⟨tbl, h1, h2, h3, h4, he, ho⟩)))
    · obtain ⟨he, ho⟩ := hpair (heq.trans h6)
      exact Or.inr (Or.inr (Or.inr (Or.inr (Or.inl ⟨tbl, h1, h2, h3, h4, h5, he, ho⟩))))
    · obtain ⟨he, ho⟩ := hpair (heq.trans h6)
      exact Or.inr (Or.inr (Or.inr (Or.inr (Or.inr ⟨tbl, d, h1, h2, h3, h4, h5, he, ho⟩))))

/-! ### Trace algebra -/

theorem mem_ckptEvents {cfg : Config} {r : ResultR} {e : Event} :
    e ∈ ckptEvents cfg r ↔ cfg.plots_dir.isSome = true ∧ e = Event.checkpointWritten r := by
  unfold ckptEvents
  split <;> simp_all

theorem mem_diagEvents {cfg : Config} {e : Event} :
    e ∈ diagEvents cfg ↔ 1 < cfg.dim_names.length ∧ e = Event.diagnosticsDone := by
  unfold diagEvents
  split <;> simp_all

theorem batchSum_append (a b : List Event) :
    batchSum (a ++ b) = batchSum a + batchSum b := by
  simp [batchSum]

theorem batchSum_ckptEvents (cfg : Config) (r : ResultR) :
    batchSum (ckptEvents cfg r) = 0 := by
  unfold ckptEvents batchSum
  split <;> simp

theorem batchSum_diagEvents (cfg : Config) :
    batchSum (diagEvents cfg) = 0 := by
  unfold diagEvents batchSum
  split <;> simp

theorem batchSum_roundEvents (ev0 : List Event) (nx : List Point) (tbl : ParamTable)
    (kw : Kwargs) (ny : List Value) :
    batchSum (roundEvents ev0 nx tbl kw ny) = batchSum ev0 + nx.length := by
  simp [roundEvents, batchSum]

theorem proposals_append (a b : List Event) :
    proposals (a ++ b) = proposals a ++ proposals b := by
  simp [proposals]

theorem lastReadD_append (r0 : Option OptDoc) (a b : List Event) :
    lastReadD r0 (a ++ b) = lastReadD (lastReadD r0 a) b := by
  simp [lastReadD, List.foldl_append]

theorem lastReadD_no_reads {l : List Event} (h : ∀ d, Event.controlRead d ∉ l)
    (r0 : Option OptDoc) : lastReadD r0 l = r0 := by
  induction l generalizing r0 with
  | nil => rfl
  | cons e l ih =>
    have hl : ∀ d, Event.controlRead d ∉ l := fun d hd => h d (List.mem_cons_of_mem e hd)
    cases e with
    | controlRead d => exact absurd (List.mem_cons_self _ _) (h d)
    | roundStarted a b => exact ih hl r0
    | askIssued n => exact ih hl r0
    | proposed p => exact ih hl r0
    | tableBuilt t => exact ih hl r0
    | evalCalled t k => exact ih hl r0
    | tellDone a b => exact ih hl r0
    | checkpointWritten r => exact ih hl r0
    | diagnosticsDone => exact ih hl r0
    | controlWritten d => exact ih hl r0

theorem convState_count (s : LoopState) (nx : List Point) (ny : List Value) :
    (convState s nx ny).count = s.count + nx.length := rfl

theorem postState_count (s : LoopState) (nx : List Point) (ny : List Value) :
    (postState s nx ny).count = s.count + nx.length := rfl

theorem applyDoc_count (s : LoopState) (d : OptDoc) :
    (applyDoc s d).count = s.count := rfl

/-! ### Step-level facts -/

theorem step_counts {cfg : Config} {ext : Externals} {s : LoopState}
    {ev : List Event} {out : StepOut} (h : stepRound cfg ext s = (ev, out)) :
    (∀ s', (out = StepOut.continue_ s' ∨ out = StepOut.killed s' ∨
            out = StepOut.converged s') →
      s'.count = s.count + batchSum ev) ∧
    (batchSum ev = 0 ∨ ∃ xs ys, Event.tellDone xs ys ∈ ev ∧ batchSum ev = xs.length) ∧
    (∀ c cnt, Event.roundStarted c cnt ∈ ev → c = s.round_ ∧ cnt = s.count) := by
  rcases stepRound_master h with ⟨hu, hask, he, ho⟩ | ⟨ev0, nx, hch, hbody⟩
  · subst he; subst ho
    refine ⟨?_, Or.inl (by simp [batchSum]), ?_⟩
    · intro s' hs'
      rcases hs' with h | h | h <;> simp at h
    · intro c cnt hm
      simp only [List.mem_cons, List.not_mem_nil, or_false] at hm
      rcases hm with h | h <;> simp_all
  · have hb0 : batchSum ev0 = 0 := by
      rcases hch with ⟨hev0, _⟩ | ⟨hev0, _⟩ <;> subst hev0 <;> simp [batchSum]
    have hr0 : ∀ c cnt, Event.roundStarted c cnt ∈ ev0 → c = s.round_ ∧ cnt = s.count := by
      rcases hch with ⟨hev0, _⟩ | ⟨hev0, _⟩ <;> subst hev0 <;>
        · intro c cnt hm
          simp only [List.mem_cons, List.not_mem_nil, or_false] at hm
          simp_all
    rcases hbody with ⟨hmk, he, ho⟩ | ⟨tbl, hmk, hlen, he, ho⟩ |
      ⟨tbl, hmk, hlen, hc, he, ho⟩ | ⟨tbl, hmk, hlen, hc, hcr, he, ho⟩ |
      ⟨tbl, hmk, hlen, hc, hcr, hrd, he, ho⟩ | ⟨tbl, d, hmk, hlen, hc, hcr, hrd, he, ho⟩
    · subst he; subst ho
      have hbs : batchSum (ev0 ++ [Event.proposed nx]) = 0 := by
        rw [batchSum_append, hb0]; simp [batchSum]
      refine ⟨?_, Or.inl hbs, ?_⟩
      · intro s' hs'
        rcases hs' with h | h | h <;> simp at h
        subst h
        rw [hbs]
        omega
      · intro c cnt hm
        rcases List.mem_append.mp hm with h | h
        · exact hr0 c cnt h
        · simp at h
    · subst he; subst ho
      have hbs : batchSum (ev0 ++ [Event.proposed nx, Event.tableBuilt tbl,
          Event.evalCalled tbl s.eval_func_kwargs]) = 0 := by
        rw [batchSum_append, hb0]; simp [batchSum]
      refine ⟨?_, Or.inl hbs, ?_⟩
      · intro s' hs'
        rcases hs' with h | h | h <;> simp at h
      · intro c cnt hm
        rcases List.mem_append.mp hm with h | h
        · exact hr0 c cnt h
        · simp at h
    · subst he; subst ho
      have hbs : batchSum (roundEvents ev0 nx tbl s.eval_func_kwargs
          (ext.eval_func tbl s.eval_func_kwargs)) = nx.length := by
        rw [batchSum_roundEvents, hb0]
        omega
      refine ⟨?_, ?_, ?_⟩
      · intro s' hs'
        rcases hs' with h | h | h <;> simp at h
        subst h
        rw [hbs, convState_count]
      · exact Or.inr ⟨nx, ext.eval_func tbl s.eval_func_kwargs,
          by simp [roundEvents], hbs⟩
      · intro c cnt hm
        unfold roundEvents at hm
        rcases List.mem_append.mp hm with h | h
        · exact hr0 c cnt h
        · simp at h
    · subst he; subst ho
      have hbs : batchSum (roundEvents ev0 nx tbl s.eval_func_kwargs
            (ext.eval_func tbl s.eval_func_kwargs) ++
          ckptEvents cfg { tellRes s nx (ext.eval_func tbl s.eval_func_kwargs) with
                           success := false }) = nx.length := by
        rw [batchSum_append, batchSum_roundEvents, batchSum_ckptEvents, hb0]
        omega
      refine ⟨?_, ?_, ?_⟩
      · intro s' hs'
        rcases hs' with h | h | h <;> simp at h
      · exact Or.inr ⟨nx, ext.eval_func tbl s.eval_func_kwargs,
          List.mem_append.mpr (Or.inl (by simp [roundEvents])), hbs⟩
      · intro c cnt hm
        rcases List.mem_append.mp hm with h | h
        · unfold roundEvents at h
          rcases List.mem_append.mp h with h | h
          · exact hr0 c cnt h
          · simp at h
        · rcases mem_ckptEvents.mp h with ⟨_, h⟩
          simp at h
    · subst he; subst ho
      have hbs : batchSum (roundEvents ev0 nx tbl s.eval_func_kwargs
            (ext.eval_func tbl s.eval_func_kwargs) ++
          ckptEvents cfg { tellRes s nx (ext.eval_func tbl s.eval_func_kwargs) with
                           success := false } ++ diagEvents cfg) = nx.length := by
        rw [batchSum_append, batchSum_append, batchSum_roundEvents,
          batchSum_ckptEvents, batchSum_diagEvents, hb0]
        omega
      refine ⟨?_, ?_, ?_⟩
      · intro s' hs'
        rcases hs' with h | h | h <;> simp at h
        subst h
        rw [hbs, postState_count]
      · exact Or.inr ⟨nx, ext.eval_func tbl s.eval_func_kwargs,
          List.mem_append.mpr (Or.inl (List.mem_append.mpr (Or.inl
            (by simp [roundEvents])))), hbs⟩
      · intro c cnt hm
        rcases List.mem_append.mp hm with h | h
        · rcases List.mem_append.mp h with h | h
          · unfold roundEvents at h
            rcases List.mem_append.mp h with h | h
            · exact hr0 c cnt h
            · simp at h
          · rcases mem_ckptEvents.mp h with ⟨_, h⟩
            simp at h
        · rcases mem_diagEvents.mp h with ⟨_, h⟩
          simp at h
    · subst he; subst ho
      have hbs : batchSum (roundEvents ev0 nx tbl s.eval_func_kwargs
            (ext.eval_func tbl s.eval_func_kwargs) ++
          ckptEvents cfg { tellRes s nx (ext.eval_func tbl s.eval_func_kwargs) with
                           success := false } ++ diagEvents cfg ++
          [Event.controlRead d,
           Event.controlWritten (writtenDoc
             (postState s nx (ext.eval_func tbl s.eval_func_kwargs)) d)]) = nx.length := by
        rw [batchSum_append, batchSum_append, batchSum_append, batchSum_roundEvents,
          batchSum_ckptEvents, batchSum_diagEvents, hb0]
        simp [batchSum]
      refine ⟨?_, ?_, ?_⟩
      · intro s' hs'
        have hstate : s' = applyDoc (postState s nx (ext.eval_func tbl s.eval_func_kwargs)) d := by
          rcases hs' with h | h | h <;> split at h <;> simp_all
        subst hstate
        rw [hbs, applyDoc_count, postState_count]
      · exact Or.inr ⟨nx, ext.eval_func tbl s.eval_func_kwargs,
          List.mem_append.mpr (Or.inl (List.mem_append.mpr (Or.inl
            (List.mem_append.mpr (Or.inl (by simp [roundEvents])))))), hbs⟩
      · intro c cnt hm
        rcases List.mem_append.mp hm with h | h
        · rcases List.mem_append.mp h with h | h
          · rcases List.mem_append.mp h with h | h
            · unfold roundEvents at h
              rcases List.mem_append.mp h with h | h
              · exact hr0 c cnt h
              · simp at h
            · rcases mem_ckptEvents.mp h with ⟨_, h⟩
              simp at h
          · rcases mem_diagEvents.mp h with ⟨_, h⟩
            simp at h
        · simp at h

/-! ### Run-level unfolding -/

theorem runLoop_succ_ge {cfg : Config} {ext : Externals} {s : LoopState} {fuel : Nat}
    (h : ¬ s.count < cfg.n_calls) :
    runLoop cfg ext (fuel + 1) s = ([], RunOut.exhausted s) := by
  simp [runLoop, h]

theorem runLoop_succ_continue {cfg : Config} {ext : Externals} {s s' : LoopState}
    {fuel : Nat} {ev₀ : List Event} (hlt : s.count < cfg.n_calls)
    (hstep : stepRound cfg ext s = (ev₀, StepOut.continue_ s')) :
    runLoop cfg ext (fuel + 1) s =
      (ev₀ ++ (runLoop cfg ext fuel s').1, (runLoop cfg ext fuel s').2) := by
  simp [runLoop, hlt, hstep]

theorem runLoop_succ_converged {cfg : Config} {ext : Externals} {s s' : LoopState}
    {fuel : Nat} {ev₀ : List Event} (hlt : s.count < cfg.n_calls)
    (hstep : stepRound cfg ext s = (ev₀, StepOut.converged s')) :
    runLoop cfg ext (fuel + 1) s = (ev₀, RunOut.converged s') := by
  simp [runLoop, hlt, hstep]

theorem runLoop_succ_killed {cfg : Config} {ext : Externals} {s s' : LoopState}
    {fuel : Nat} {ev₀ : List Event} (hlt : s.count < cfg.n_calls)
    (hstep : stepRound cfg ext s = (ev₀, StepOut.killed s')) :
    runLoop cfg ext (fuel + 1) s = (ev₀, RunOut.killed s') := by
  simp [runLoop, hlt, hstep]

theorem runLoop_succ_error {cfg : Config} {ext : Externals} {s s' : LoopState}
    {fuel : Nat} {ev₀ : List Event} {k : ErrKind} (hlt : s.count < cfg.n_calls)
    (hstep : stepRound cfg ext s = (ev₀, StepOut.error_ k s')) :
    runLoop cfg ext (fuel + 1) s = (ev₀, RunOut.error_ k s') := by
  simp [runLoop, hlt, hstep]

theorem runLoop_count {cfg : Config} {ext : Externals} :
    ∀ (fuel : Nat) (s : LoopState) (ev : List Event) (out : RunOut) (s' : LoopState),
      runLoop cfg ext fuel s = (ev, out) → out.state? = some s' →
      s'.count = s.count + batchSum ev := by
  intro fuel
  induction fuel with
  | zero =>
    intro s ev out s' h hs
    obtain ⟨he, ho⟩ : ev = [] ∧ out = RunOut.fuelOut s := by
      have := h.symm
      exact ⟨congrArg Prod.fst this, congrArg Prod.snd this⟩
    subst he; subst ho
    simp only [RunOut.state?, Option.some.injEq] at hs
    subst hs
    simp [batchSum]
  | succ fuel ih =>
    intro s ev out s' h hs
    by_cases hlt : s.count < cfg.n_calls
    · rcases hstep : stepRound cfg ext s with ⟨ev₀, out₀⟩
      cases out₀ with
      | continue_ s1 =>
        rw [runLoop_succ_continue hlt hstep] at h
        rcases hrec : runLoop cfg ext fuel s1 with ⟨ev1, out1⟩
        rw [hrec] at h
        obtain ⟨he, ho⟩ : ev = ev₀ ++ ev1 ∧ out = out1 := by
          have := h.symm
          exact ⟨congrArg Prod.fst this, congrArg Prod.snd this⟩
        subst he; subst ho
        have h1 : s1.count = s.count + batchSum ev₀ :=
          (step_counts hstep).1 s1 (Or.inl rfl)
        have h2 : s'.count = s1.count + batchSum ev1 := ih s1 ev1 _ s' hrec hs
        rw [batchSum_append]
        omega
      | converged s1 =>
        rw [runLoop_succ_converged hlt hstep] at h
        obtain ⟨he, ho⟩ : ev = ev₀ ∧ out = RunOut.converged s1 := by
          have := h.symm
          exact ⟨congrArg Prod.fst this, congrArg Prod.snd this⟩
        subst he; subst ho
        simp only [RunOut.state?, Option.some.injEq] at hs
        subst hs
        exact (step_counts hstep).1 _ (Or.inr (Or.inr rfl))
      | killed s1 =>
        rw [runLoop_succ_killed hlt hstep] at h
        obtain ⟨he, ho⟩ : ev = ev₀ ∧ out = RunOut.killed s1 := by
          have := h.symm
          exact ⟨congrArg Prod.fst this, congrArg Prod.snd this⟩
        subst he; subst ho
        simp only [RunOut.state?, Option.some.injEq] at hs
        subst hs
        exact (step_counts hstep).1 _ (Or.inr (Or.inl rfl))
      | error_ k s1 =>
        rw [runLoop_succ_error hlt hstep] at h
        obtain ⟨he, ho⟩ : ev = ev₀ ∧ out = RunOut.error_ k s1 := by
          have := h.symm
          exact ⟨congrArg Prod.fst this, congrArg Prod.snd this⟩
        subst ho
        simp [RunOut.state?] at hs
    · rw [runLoop_succ_ge hlt] at h
      obtain ⟨he, ho⟩ : ev = [] ∧ out = RunOut.exhausted s := by
        have := h.symm
        exact ⟨congrArg Prod.fst this, congrArg Prod.snd this⟩
      subst he; subst ho
      simp only [RunOut.state?, Option.some.injEq] at hs
      subst hs
      simp [batchSum]

theorem runLoop_roundStarted {cfg : Config} {ext : Externals} :
    ∀ (fuel : Nat) (s : LoopState) (ev : List Event) (out : RunOut),
      runLoop cfg ext fuel s = (ev, out) →
      ∀ c cnt, Event.roundStarted c cnt ∈ ev → cnt < cfg.n_calls := by
  intro fuel
  induction fuel with
  | zero =>
    intro s ev out h c cnt hm
    obtain he : ev = [] := congrArg Prod.fst h.symm
    subst he
    simp at hm
  | succ fuel ih =>
    intro s ev out h c cnt hm
    by_cases hlt : s.count < cfg.n_calls
    · rcases hstep : stepRound cfg ext s with ⟨ev₀, out₀⟩
      have hmem₀ : Event.roundStarted c cnt ∈ ev₀ → cnt < cfg.n_calls := by
        intro hin
        have := ((step_counts hstep).2.2 c cnt hin).2
        omega
      cases out₀ with
      | continue_ s1 =>
        rw [runLoop_succ_continue hlt hstep] at h
        rcases hrec : runLoop cfg ext fuel s1 with ⟨ev1, out1⟩
        rw [hrec] at h
        obtain he : ev = ev₀ ++ ev1 := congrArg Prod.fst h.symm
        subst he
        rcases List.mem_append.mp hm with hin | hin
        · exact hmem₀ hin
        · exact ih s1 ev1 out1 hrec c cnt hin
      | converged s1 =>
        rw [runLoop_succ_converged hlt hstep] at h
        obtain he : ev = ev₀ := congrArg Prod.fst h.symm
        subst he
        exact hmem₀ hm
      | killed s1 =>
        rw [runLoop_succ_killed hlt hstep] at h
        obtain he : ev = ev₀ := congrArg Prod.fst h.symm
        subst he
        exact hmem₀ hm
      | error_ k s1 =>
        rw [runLoop_succ_error hlt hstep] at h
        obtain he : ev = ev₀ := congrArg Prod.fst h.symm
        subst he
        exact hmem₀ hm
    · rw [runLoop_succ_ge hlt] at h
      obtain he : ev = [] := congrArg Prod.fst h.symm
      subst he
      simp at hm

theorem runLoop_budget_bound {cfg : Config} {ext : Externals} {B : Nat} :
    ∀ (fuel : Nat) (s : LoopState) (ev : List Event) (out : RunOut) (s' : LoopState),
      runLoop cfg ext fuel s = (ev, out) → out.state? = some s' →
      (∀ xs ys, Event.tellDone xs ys ∈ ev → xs.length ≤ B) →
      s.count ≤ cfg.n_calls + B → s'.count ≤ cfg.n_calls + B := by
  intro fuel
  induction fuel with
  | zero =>
    intro s ev out s' h hs hB hcnt
    obtain ho : out = RunOut.fuelOut s := congrArg Prod.snd h.symm
    subst ho
    simp only [RunOut.state?, Option.some.injEq] at hs
    subst hs
    exact hcnt
  | succ fuel ih =>
    intro s ev out s' h hs hB hcnt
    by_cases hlt : s.count < cfg.n_calls
    · rcases hstep : stepRound cfg ext s with ⟨ev₀, out₀⟩
      have hstepB : ∀ s1, (out₀ = StepOut.continue_ s1 ∨ out₀ = StepOut.killed s1 ∨
          out₀ = StepOut.converged s1) → (∀ xs ys, Event.tellDone xs ys ∈ ev₀ →
            xs.length ≤ B) → s1.count ≤ cfg.n_calls + B := by
        intro s1 hout hB₀
        have h1 : s1.count = s.count + batchSum ev₀ := (step_counts hstep).1 s1 hout
        rcases (step_counts hstep).2.1 with hz | ⟨xs, ys, hin, hx⟩
        · omega
        · have := hB₀ xs ys hin
          omega
      cases out₀ with
      | continue_ s1 =>
        rw [runLoop_succ_continue hlt hstep] at h
        rcases hrec : runLoop cfg ext fuel s1 with ⟨ev1, out1⟩
        rw [hrec] at h
        obtain ⟨he, ho⟩ : ev = ev₀ ++ ev1 ∧ out = out1 := by
          have := h.symm
          exact ⟨congrArg Prod.fst this, congrArg Prod.snd this⟩
        subst he; subst ho
        refine ih s1 ev1 _ s' hrec hs ?_ ?_
        · intro xs ys hin
          exact hB xs ys (List.mem_append.mpr (Or.inr hin))
        · exact hstepB s1 (Or.inl rfl)
            (fun xs ys hin => hB xs ys (List.mem_append.mpr (Or.inl hin)))
      | converged s1 =>
        rw [runLoop_succ_converged hlt hstep] at h
        obtain ⟨he, ho⟩ : ev = ev₀ ∧ out = RunOut.converged s1 := by
          have := h.symm
          exact ⟨congrArg Prod.fst this, congrArg Prod.snd this⟩
        subst he; subst ho
        simp only [RunOut.state?, Option.some.injEq] at hs
        subst hs
        exact hstepB _ (Or.inr (Or.inr rfl)) hB
      | killed s1 =>
        rw [runLoop_succ_killed hlt hstep] at h
        obtain ⟨he, ho⟩ : ev = ev₀ ∧ out = RunOut.killed s1 := by
          have := h.symm
          exact ⟨congrArg Prod.fst this, congrArg Prod.snd this⟩
        subst he; subst ho
        simp only [RunOut.state?, Option.some.injEq] at hs
        subst hs
        exact hstepB _ (Or.inr (Or.inl rfl)) hB
      | error_ k s1 =>
        rw [runLoop_succ_error hlt hstep] at h
        obtain ho : out = RunOut.error_ k s1 := congrArg Prod.snd h.symm
        subst ho
        simp [RunOut.state?] at hs
    · rw [runLoop_succ_ge hlt] at h
      obtain ho : out = RunOut.exhausted s := congrArg Prod.snd h.symm
      subst ho
      simp only [RunOut.state?, Option.some.injEq] at hs
      subst hs
      exact hcnt

/-- C3: after each completed round the evaluations counter `count`
equals its value at loop entry (which `initState` sets to the length of
the loaded observation history, 0 for a fresh start) plus the sum of
the batch sizes told so far; it is monotonically non-decreasing; a
round starts only while the counter is strictly below `n_calls`; and
when every batch is at most `B` wide the counter never exceeds
`n_calls` by more than one batch width. -/
theorem c3_evaluations_counter (cfg : Config) (ext : Externals) (fuel : Nat)
    (s : LoopState) (ev : List Event) (out : RunOut) (s' : LoopState)
    (h : runLoop cfg ext fuel s = (ev, out)) (hs : out.state? = some s') :
    (∀ xi yi nc, (initState xi yi nc).count = xi.length) ∧
    s'.count = s.count + batchSum ev ∧
    s.count ≤ s'.count ∧
    (∀ c cnt, Event.roundStarted c cnt ∈ ev → cnt < cfg.n_calls) ∧
    (∀ B, (∀ xs ys, Event.tellDone xs ys ∈ ev → xs.length ≤ B) →
      s.count ≤ cfg.n_calls + B → s'.count ≤ cfg.n_calls + B) := by
  have hcount := runLoop_count fuel s ev out s' h hs
  refine ⟨fun _ _ _ => rfl, hcount, by omega,
    runLoop_roundStarted fuel s ev out h,
    fun B hB hcnt => runLoop_budget_bound fuel s ev out s' h hs hB hcnt⟩

/-- Witness for C3: a two-round exhausted run with batch width 2 and
budget 3, starting from an empty history. -/
theorem c3_evaluations_counter_witness :
    ∃ ev out s', runLoop cfg3 extPlain 9 (initState [] [] 2) = (ev, out) ∧
      out.state? = some s' ∧
      s'.count = (initState [] [] 2).count + batchSum ev ∧
      (initState [] [] 2).count ≤ s'.count ∧
      (∀ c cnt, Event.roundStarted c cnt ∈ ev → cnt < cfg3.n_calls) := by
  have h := c3_evaluations_counter cfg3 extPlain 9 (initState [] [] 2) _ _
    ((runLoop cfg3 extPlain 9 (initState [] [] 2)).2.state?.getD (initState [] [] 2))
    rfl (by decide)
  exact ⟨_, _, _, rfl, by decide, h.2.1, h.2.2.1, h.2.2.2.1⟩

/-- C6: when the user-override path is not taken and the engine's `ask`
raises its degenerate-search-space `ValueError` (lines 799-805), the
exception is re-raised out of the whole loop: the run ends with the
error and the round's trace contains no `proposed`, `tableBuilt` or any
later event — no parameter table is built. -/
theorem c6_ask_error_propagates (cfg : Config) (ext : Externals) (fuel : Nat)
    (s : LoopState) (hguard : s.count < cfg.n_calls) (hu : s.user_ask = false)
    (hask : ext.ask s.opt.Xi s.opt.yi s.n_cores = Except.error ()) :
    runLoop cfg ext (fuel + 1) s =
      ([Event.roundStarted s.round_ s.count, Event.askIssued s.n_cores],
       RunOut.error_ ErrKind.askValueError s) := by
  have hstep : stepRound cfg ext s =
      ([Event.roundStarted s.round_ s.count, Event.askIssued s.n_cores],
       StepOut.error_ ErrKind.askValueError s) := by
    simp [stepRound, hu, hask]
  exact runLoop_succ_error hguard hstep

/-- Witness for C6: a degenerate engine aborts the run in round one. -/
theorem c6_ask_error_propagates_witness :
    (initState [] [] 1).count < cfg1.n_calls ∧
    runLoop cfg1 extAskFail 1 (initState [] [] 1) =
      ([Event.roundStarted 1 0, Event.askIssued 1],
       RunOut.error_ ErrKind.askValueError (initState [] [] 1)) :=
  ⟨by decide,
   c6_ask_error_propagates cfg1 extAskFail 0 (initState [] [] 1) (by decide) rfl rfl⟩

/-- C1 as stated is false on the code: there is no handler around
`eval_func`/`tell` (lines 817-818), so a mismatched-length result list
reaches skopt's `tell`, whose `ValueError` aborts the whole run, and
`count` has already been incremented at line 815.  This concrete run
has the evaluation routine return 0 values for a 1-row table: the trace
stops inside round one (a single `roundStarted`, no second `ask`), the
outcome is the propagated error rather than a skip-and-continue, and
the counter at the point of the raise is 1, not its pre-round value
0. -/
theorem c1_counterexample :
    (extMismatch.eval_func ⟨["x"], [[0]]⟩ []).length ≠ ([[0]] : List Point).length ∧
    runLoop cfg1 extMismatch 6 (initState [] [] 1) =
      ([Event.roundStarted 1 0, Event.askIssued 1, Event.proposed [[0]],
        Event.tableBuilt ⟨["x"], [[0]]⟩, Event.evalCalled ⟨["x"], [[0]]⟩ []],
       RunOut.error_ ErrKind.tellLengthMismatch (bump (initState [] [] 1) 1)) ∧
    (bump (initState [] [] 1) 1).count ≠ (initState [] [] 1).count :=
  ⟨by decide, by decide, by decide⟩

/-- C1 amended: an evaluation routine returning a result list whose
length differs from the number of proposed points makes the engine's
`tell` raise; the `ValueError` is not caught, so the run aborts with
it (no `tell` recorded, no checkpoint, no control activity, no further
round), and the evaluations counter was already incremented by the
batch size before the evaluation call. -/
theorem c1_amended_mismatch_aborts (cfg : Config) (ext : Externals) (fuel : Nat)
    (s : LoopState) (nx : List Point) (tbl : ParamTable)
    (hguard : s.count < cfg.n_calls) (hu : s.user_ask = false)
    (hask : ext.ask s.opt.Xi s.opt.yi s.n_cores = Except.ok nx)
    (htbl : mkParamTable nx cfg.dim_names = Except.ok tbl)
    (hlen : nx.length ≠ (ext.eval_func tbl s.eval_func_kwargs).length) :
    runLoop cfg ext (fuel + 1) s =
      ([Event.roundStarted s.round_ s.count, Event.askIssued s.n_cores,
        Event.proposed nx, Event.tableBuilt tbl,
        Event.evalCalled tbl s.eval_func_kwargs],
       RunOut.error_ ErrKind.tellLengthMismatch (bump s nx.length)) ∧
    (bump s nx.length).count = s.count + nx.length := by
  have hstep : stepRound cfg ext s =
      ([Event.roundStarted s.round_ s.count, Event.askIssued s.n_cores,
        Event.proposed nx, Event.tableBuilt tbl,
        Event.evalCalled tbl s.eval_func_kwargs],
       StepOut.error_ ErrKind.tellLengthMismatch (bump s nx.length)) := by
    simp [stepRound, hu, hask, stepWith, htbl, tell, hlen]
  exact ⟨runLoop_succ_error hguard hstep, rfl⟩

/-- Witness for the amended C1 at the concrete mismatching run. -/
theorem c1_amended_mismatch_aborts_witness :
    runLoop cfg1 extMismatch 6 (initState [] [] 1) =
      ([Event.roundStarted 1 0, Event.askIssued 1, Event.proposed [[0]],
        Event.tableBuilt ⟨["x"], [[0]]⟩, Event.evalCalled ⟨["x"], [[0]]⟩ []],
       RunOut.error_ ErrKind.tellLengthMismatch (bump (initState [] [] 1) 1)) ∧
    (bump (initState [] [] 1) 1).count = (initState [] [] 1).count + 1 :=
  c1_amended_mismatch_aborts cfg1 extMismatch 5 (initState [] [] 1) [[0]]
    ⟨["x"], [[0]]⟩ (by decide) rfl rfl rfl (by decide)

/-- C4 as stated is false on the code in one configuration: with no
plots directory configured (`plots_dir=None`) and a space of more than
one dimension, a non-converged round marks `success = False` at
line 825 but then aborts with the `TypeError` raised by
`os.path.abspath(None)` at line 841 — "the loop continues" fails.  In
this concrete run the best value 5 is not below the tolerance 0, the
result carried by the propagated error has `success = false`, and the
outcome is an abort, not a continuation. -/
theorem c4_counterexample :
    ¬ listMin ((initState [] [] 1).opt.yi ++ [(5 : Value)]) < cfgCrash.tol ∧
    runLoop cfgCrash extCrash 5 (initState [] [] 1) =
      ([Event.roundStarted 1 0, Event.askIssued 1, Event.proposed [[0, 0]],
        Event.tableBuilt ⟨["a", "b"], [[0, 0]]⟩,
        Event.evalCalled ⟨["a", "b"], [[0, 0]]⟩ [],
        Event.tellDone [[0, 0]] [5]],
       RunOut.error_ ErrKind.abspathNoneTypeError
         (postState (initState [] [] 1) [[0, 0]] [5])) ∧
    (postState (initState [] [] 1) [[0, 0]] [5]).result = some ⟨5, 1, false⟩ :=
  ⟨by decide, by decide, by decide⟩

/-- C4 amended: after a round's `tell`, if the best objective observed
so far is strictly below `tol` the result is marked `success = true`
and the loop stops before the next round (the round's trace ends at the
`tell`); otherwise the result is marked `success = false` and — in
every configuration with a plots directory or at most one dimension,
which excludes the `abspath(None)` crash — the loop does not stop at
the convergence check: the round ends in a continue, or in a kill
raised later by the control phase. -/
theorem c4_amended_convergence (cfg : Config) (ext : Externals) (s : LoopState)
    (nx : List Point) (tbl : ParamTable)
    (hu : s.user_ask = false)
    (hask : ext.ask s.opt.Xi s.opt.yi s.n_cores = Except.ok nx)
    (htbl : mkParamTable nx cfg.dim_names = Except.ok tbl)
    (hlen : nx.length = (ext.eval_func tbl s.eval_func_kwargs).length)
    (hsafe : cfg.plots_dir.isSome = true ∨ ¬ 1 < cfg.dim_names.length) :
    (listMin (s.opt.yi ++ ext.eval_func tbl s.eval_func_kwargs) < cfg.tol →
      stepRound cfg ext s =
        (roundEvents [Event.roundStarted s.round_ s.count, Event.askIssued s.n_cores]
           nx tbl s.eval_func_kwargs (ext.eval_func tbl s.eval_func_kwargs),
         StepOut.converged (convState s nx (ext.eval_func tbl s.eval_func_kwargs))) ∧
      (convState s nx (ext.eval_func tbl s.eval_func_kwargs)).result =
        some ⟨listMin (s.opt.yi ++ ext.eval_func tbl s.eval_func_kwargs),
              s.count + nx.length, true⟩) ∧
    (¬ listMin (s.opt.yi ++ ext.eval_func tbl s.eval_func_kwargs) < cfg.tol →
      ∃ ev s', (stepRound cfg ext s = (ev, StepOut.continue_ s') ∨
                stepRound cfg ext s = (ev, StepOut.killed s')) ∧
        s'.result = some ⟨listMin (s.opt.yi ++ ext.eval_func tbl s.eval_func_kwargs),
                          s.count + nx.length, false⟩) := by
  have heq : stepRound cfg ext s =
      stepWith cfg ext s
        [Event.roundStarted s.round_ s.count, Event.askIssued s.n_cores] nx := by
    simp [stepRound, hu, hask]
  rcases stepWith_master cfg ext s
      [Event.roundStarted s.round_ s.count, Event.askIssued s.n_cores] nx with
    ⟨hmk, hsw⟩ | ⟨tbl', hmk, hlen', hsw⟩ | ⟨tbl', hmk, hlen', hc, hsw⟩ |
    ⟨tbl', hmk, hlen', hc, hcr, hsw⟩ | ⟨tbl', hmk, hlen', hc, hcr, hrd, hsw⟩ |
    ⟨tbl', d, hmk, hlen', hc, hcr, hrd, hsw⟩
  · rw [htbl] at hmk
    exact absurd hmk (by simp)
  · obtain rfl : tbl' = tbl := (Except.ok.inj (htbl.symm.trans hmk)).symm
    exact absurd hlen hlen'
  · obtain rfl : tbl' = tbl := (Except.ok.inj (htbl.symm.trans hmk)).symm
    refine ⟨fun _ => ⟨heq.trans hsw, rfl⟩, fun hnc => absurd hc hnc⟩
  · obtain rfl : tbl' = tbl := (Except.ok.inj (htbl.symm.trans hmk)).symm
    rcases hsafe with hps | hnd
    · rw [hcr.2] at hps
      simp at hps
    · exact absurd hcr.1 hnd
  · obtain rfl : tbl' = tbl := (Except.ok.inj (htbl.symm.trans hmk)).symm
    refine ⟨fun hcv => absurd hcv hc, fun _ => ?_⟩
    exact ⟨_, postState s nx (ext.eval_func tbl' s.eval_func_kwargs),
      Or.inl (heq.trans hsw), rfl⟩
  · obtain rfl : tbl' = tbl := (Except.ok.inj (htbl.symm.trans hmk)).symm
    refine ⟨fun hcv => absurd hcv hc, fun _ => ?_⟩
    have hstep := heq.trans hsw
    by_cases hk : d.kill.getD false = true
    · rw [if_pos hk] at hstep
      exact ⟨_, _, Or.inr hstep, rfl⟩
    · rw [if_neg hk] at hstep
      exact ⟨_, _, Or.inl hstep, rfl⟩

/-- Witness for the amended C4: a converging one-round run (objective 0
strictly below tolerance 1) stops at the convergence check with
`success = true`. -/
theorem c4_amended_convergence_witness :
    listMin ((initState [] [] 1).opt.yi ++ extConv.eval_func ⟨["x"], [[0]]⟩ []) <
      cfg1.tol ∧
    stepRound cfg1 extConv (initState [] [] 1) =
      (roundEvents [Event.roundStarted 1 0, Event.askIssued 1] [[0]]
         ⟨["x"], [[0]]⟩ [] [0],
       StepOut.converged (convState (initState [] [] 1) [[0]] [0])) := by
  have h := (c4_amended_convergence cfg1 extConv (initState [] [] 1) [[0]]
    ⟨["x"], [[0]]⟩ rfl rfl rfl (by decide) (Or.inl rfl)).1 (by decide)
  exact ⟨by decide, h.1⟩

theorem step_converged_shape {cfg : Config} {ext : Externals} {s s₂ : LoopState}
    {ev : List Event} (h : stepRound cfg ext s = (ev, StepOut.converged s₂)) :
    ∃ mid nx tbl ny,
      ev = Event.roundStarted s.round_ s.count :: mid ∧
      (mid = [Event.askIssued s.n_cores, Event.proposed nx, Event.tableBuilt tbl,
              Event.evalCalled tbl s.eval_func_kwargs, Event.tellDone nx ny] ∨
       mid = [Event.proposed nx, Event.tableBuilt tbl,
              Event.evalCalled tbl s.eval_func_kwargs, Event.tellDone nx ny]) := by
  rcases stepRound_master h with ⟨_, _, _, ho⟩ | ⟨ev0, nx, hch, hbody⟩
  · simp at ho
  · rcases hbody with ⟨hmk, he, ho⟩ | ⟨tbl, hmk, hlen, he, ho⟩ |
      ⟨tbl, hmk, hlen, hc, he, ho⟩ | ⟨tbl, hmk, hlen, hc, hcr, he, ho⟩ |
      ⟨tbl, hmk, hlen, hc, hcr, hrd, he, ho⟩ | ⟨tbl, d, hmk, hlen, hc, hcr, hrd, he, ho⟩
    · simp at ho
    · simp at ho
    · rcases hch with ⟨hev0, _, _, _⟩ | ⟨hev0, _, _⟩ <;> subst hev0 <;> subst he
      · exact ⟨_, nx, tbl, ext.eval_func tbl s.eval_func_kwargs,
          by simp [roundEvents], Or.inr rfl⟩
      · exact ⟨_, nx, tbl, ext.eval_func tbl s.eval_func_kwargs,
          by simp [roundEvents], Or.inl rfl⟩
    · simp at ho
    · simp at ho
    · split at ho <;> simp at ho

/-- C9: a converging round exits the loop immediately after `tell`
(line 823): the final round's trace, after its `roundStarted`, contains
no checkpoint write, no diagnostics, and neither a control-document
read nor a rewrite — it ends at the `tellDone`.  The checkpoint on disk
therefore still reflects the previous round, and any pending
`user_ask`/`kill` pulse in the document is left un-reset. -/
theorem c9_converged_round_frame (cfg : Config) (ext : Externals) (fuel : Nat)
    (s : LoopState) (ev : List Event) (s' : LoopState)
    (h : runLoop cfg ext fuel s = (ev, RunOut.converged s')) :
    ∃ pre c cnt mid, ev = pre ++ Event.roundStarted c cnt :: mid ∧
      (∀ c' cnt', Event.roundStarted c' cnt' ∉ mid) ∧
      (∀ r, Event.checkpointWritten r ∉ mid) ∧
      Event.diagnosticsDone ∉ mid ∧
      (∀ d, Event.controlRead d ∉ mid) ∧
      (∀ d, Event.controlWritten d ∉ mid) ∧
      (∃ nx ny, mid.getLast? = some (Event.tellDone nx ny)) := by
  induction fuel generalizing s ev with
  | zero =>
    have ho : RunOut.fuelOut s = RunOut.converged s' := congrArg Prod.snd h
    simp at ho
  | succ fuel ih =>
    by_cases hlt : s.count < cfg.n_calls
    · rcases hstep : stepRound cfg ext s with ⟨ev₀, out₀⟩
      cases out₀ with
      | continue_ s1 =>
        rw [runLoop_succ_continue hlt hstep] at h
        rcases hrec : runLoop cfg ext fuel s1 with ⟨ev1, out1⟩
        rw [hrec] at h
        simp only [Prod.mk.injEq] at h
        obtain ⟨he, ho⟩ := h
        subst he
        rw [ho] at hrec
        obtain ⟨pre, c, cnt, mid, he1, hmid⟩ := ih s1 ev1 hrec
        exact ⟨ev₀ ++ pre, c, cnt, mid, by rw [he1, List.append_assoc], hmid⟩
      | converged s1 =>
        rw [runLoop_succ_converged hlt hstep] at h
        obtain ⟨he, _⟩ : ev = ev₀ ∧ RunOut.converged s1 = RunOut.converged s' := by
          have := h.symm
          exact ⟨congrArg Prod.fst this, congrArg Prod.snd this.symm⟩
        subst he
        obtain ⟨mid, nx, tbl, ny, he0, hmid⟩ := step_converged_shape hstep
        refine ⟨[], s.round_, s.count, mid, by rw [he0]; rfl, ?_⟩
        rcases hmid with h1 | h1 <;> subst h1 <;>
          exact ⟨by simp, by simp, by simp, by simp, by simp, nx, ny, by simp⟩
      | killed s1 =>
        rw [runLoop_succ_killed hlt hstep] at h
        have ho : RunOut.killed s1 = RunOut.converged s' := congrArg Prod.snd h
        simp at ho
      | error_ k s1 =>
        rw [runLoop_succ_error hlt hstep] at h
        have ho : RunOut.error_ k s1 = RunOut.converged s' := congrArg Prod.snd h
        simp at ho
    · rw [runLoop_succ_ge hlt] at h
      have ho : RunOut.exhausted s = RunOut.converged s' := congrArg Prod.snd h
      simp at ho

/-- Witness for C9: the concrete converging run (objective 0, tolerance
1) exits in round one right after its `tell`. -/
theorem c9_converged_round_frame_witness :
    ∃ pre c cnt mid,
      (runLoop cfg1 extConv 6 (initState [] [] 1)).1 =
        pre ++ Event.roundStarted c cnt :: mid ∧
      (∀ c' cnt', Event.roundStarted c' cnt' ∉ mid) ∧
      (∀ r, Event.checkpointWritten r ∉ mid) ∧
      Event.diagnosticsDone ∉ mid ∧
      (∀ d, Event.controlRead d ∉ mid) ∧
      (∀ d, Event.controlWritten d ∉ mid) ∧
      (∃ nx ny, mid.getLast? = some (Event.tellDone nx ny)) :=
  c9_converged_round_frame cfg1 extConv 6 (initState [] [] 1) _
    (convState (initState [] [] 1) [[0]] [0]) (by decide)

theorem append_eq_split {α : Type} {a b l₁ l₂ : List α} {x : α}
    (h : a ++ b = l₁ ++ x :: l₂) :
    (∃ t, a = l₁ ++ x :: t ∧ l₂ = t ++ b) ∨
    (∃ t, l₁ = a ++ t ∧ b = t ++ x :: l₂) := by
  induction a generalizing l₁ with
  | nil => exact Or.inr ⟨l₁, rfl, h⟩
  | cons y a ih =>
    cases l₁ with
    | nil =>
      obtain ⟨h1, h2⟩ := List.cons.inj h
      subst h1
      exact Or.inl ⟨a, rfl, h2.symm⟩
    | cons z l₁ =>
      obtain ⟨h1, h2⟩ := List.cons.inj h
      subst h1
      rcases ih h2 with ⟨t, h3, h4⟩ | ⟨t, h3, h4⟩
      · exact Or.inl ⟨t, by simp [h3], h4⟩
      · exact Or.inr ⟨t, by simp [h3], h4⟩

theorem split_read_pair {pre l₁ l₂ : List Event} {d d₀ : OptDoc} {w : Event}
    (hsp : pre ++ [Event.controlRead d₀, w] = l₁ ++ Event.controlRead d :: l₂)
    (hpre : ∀ d', Event.controlRead d' ∉ pre)
    (hw : ∀ d', w ≠ Event.controlRead d') :
    d = d₀ ∧ l₁ = pre ∧ l₂ = [w] := by
  rcases append_eq_split hsp with ⟨t, h3, _⟩ | ⟨t, h3, h4⟩
  · exact absurd (h3 ▸ List.mem_append.mpr (Or.inr (List.mem_cons_self _ _)))
      (hpre d)
  · cases t with
    | nil =>
      obtain ⟨h5, h6⟩ := List.cons.inj h4
      obtain rfl : d₀ = d := Event.controlRead.inj h5
      exact ⟨rfl, by rw [h3]; simp, h6.symm⟩
    | cons e t' =>
      obtain ⟨h5, h6⟩ := List.cons.inj h4
      cases t' with
      | nil =>
        obtain ⟨h7, _⟩ := List.cons.inj h6
        exact absurd h7 (hw d)
      | cons e' t'' =>
        obtain ⟨_, h8⟩ := List.cons.inj h6
        simp at h8

theorem ckptEvents_isSome {cfg : Config} (hp : cfg.plots_dir.isSome = true)
    (r : ResultR) : ckptEvents cfg r = [Event.checkpointWritten r] := by
  simp [ckptEvents, hp]

theorem diagEvents_pos {cfg : Config} (hd : 1 < cfg.dim_names.length) :
    diagEvents cfg = [Event.diagnosticsDone] := by
  simp [diagEvents, hd]

theorem step_error_no_read {cfg : Config} {ext : Externals} {s s₂ : LoopState}
    {ev : List Event} {k : ErrKind}
    (h : stepRound cfg ext s = (ev, StepOut.error_ k s₂)) :
    ∀ d, Event.controlRead d ∉ ev := by
  intro d hm
  rcases stepRound_master h with ⟨_, _, he, _⟩ | ⟨ev0, nx, hch, hbody⟩
  · subst he; simp at hm
  · have hev0 : ∀ d', Event.controlRead d' ∉ ev0 := by
      rcases hch with ⟨hev0, _⟩ | ⟨hev0, _⟩ <;> subst hev0 <;> simp
    rcases hbody with ⟨hmk, he, ho⟩ | ⟨tbl, hmk, hlen, he, ho⟩ |
      ⟨tbl, hmk, hlen, hc, he, ho⟩ | ⟨tbl, hmk, hlen, hc, hcr, he, ho⟩ |
      ⟨tbl, hmk, hlen, hc, hcr, hrd, he, ho⟩ | ⟨tbl, d', hmk, hlen, hc, hcr, hrd, he, ho⟩
    · simp at ho
    · subst he
      rcases List.mem_append.mp hm with h' | h'
      · exact hev0 d h'
      · simp at h'
    · simp at ho
    · subst he
      rcases List.mem_append.mp hm with h' | h'
      · unfold roundEvents at h'
        rcases List.mem_append.mp h' with h' | h'
        · exact hev0 d h'
        · simp at h'
      · rcases mem_ckptEvents.mp h' with ⟨_, h'⟩
        simp at h'
    · simp at ho
    · split at ho <;> simp at ho

theorem step_read_shape {cfg : Config} {ext : Externals} {s : LoopState}
    {ev : List Event} {out : StepOut} {d : OptDoc}
    (h : stepRound cfg ext s = (ev, out)) (hm : Event.controlRead d ∈ ev) :
    ∃ pre s3,
      ev = pre ++ [Event.controlRead d, Event.controlWritten (writtenDoc s3 d)] ∧
      s3.n_cores = s.n_cores ∧
      (∀ d', Event.controlRead d' ∉ pre) ∧
      (∃ mid, pre = Event.roundStarted s.round_ s.count :: mid ∧
        (∀ c cnt, Event.roundStarted c cnt ∉ mid) ∧
        (∃ nx ny, Event.tellDone nx ny ∈ mid) ∧
        (cfg.plots_dir.isSome = true → ∃ r, Event.checkpointWritten r ∈ mid) ∧
        (1 < cfg.dim_names.length → Event.diagnosticsDone ∈ mid)) ∧
      out = (if d.kill.getD false then StepOut.killed (applyDoc s3 d)
             else StepOut.continue_ (applyDoc s3 d)) := by
  rcases stepRound_master h with ⟨_, _, he, _⟩ | ⟨ev0, nx, hch, hbody⟩
  · subst he; simp at hm
  · have hev0 : ∀ d', Event.controlRead d' ∉ ev0 := by
      rcases hch with ⟨hev0, _⟩ | ⟨hev0, _⟩ <;> subst hev0 <;> simp
    rcases hbody with ⟨hmk, he, ho⟩ | ⟨tbl, hmk, hlen, he, ho⟩ |
      ⟨tbl, hmk, hlen, hc, he, ho⟩ | ⟨tbl, hmk, hlen, hc, hcr, he, ho⟩ |
      ⟨tbl, hmk, hlen, hc, hcr, hrd, he, ho⟩ | ⟨tbl, d', hmk, hlen, hc, hcr, hrd, he, ho⟩
    · subst he
      rcases List.mem_append.mp hm with h' | h'
      · exact absurd h' (hev0 d)
      · simp at h'
    · subst he
      rcases List.mem_append.mp hm with h' | h'
      · exact absurd h' (hev0 d)
      · simp at h'
    · subst he
      unfold roundEvents at hm
      rcases List.mem_append.mp hm with h' | h'
      · exact absurd h' (hev0 d)
      · simp at h'
    · subst he
      rcases List.mem_append.mp hm with h' | h'
      · unfold roundEvents at h'
        rcases List.mem_append.mp h' with h' | h'
        · exact absurd h' (hev0 d)
        · simp at h'
      · rcases mem_ckptEvents.mp h' with ⟨_, h'⟩
        simp at h'
    · subst he
      rcases List.mem_append.mp hm with h' | h'
      · rcases List.mem_append.mp h' with h' | h'
        · unfold roundEvents at h'
          rcases List.mem_append.mp h' with h' | h'
          · exact absurd h' (hev0 d)
          · simp at h'
        · rcases mem_ckptEvents.mp h' with ⟨_, h'⟩
          simp at h'
      · rcases mem_diagEvents.mp h' with ⟨_, h'⟩
        simp at h'
    · have hd : d = d' := by
        subst he
        rcases List.mem_append.mp hm with h' | h'
        · exfalso
          rcases List.mem_append.mp h' with h' | h'
          · rcases List.mem_append.mp h' with h' | h'
            · unfold roundEvents at h'
              rcases List.mem_append.mp h' with h' | h'
              · exact hev0 d h'
              · simp at h'
            · rcases mem_ckptEvents.mp h' with ⟨_, h'⟩
              simp at h'
          · rcases mem_diagEvents.mp h' with ⟨_, h'⟩
            simp at h'
        · simp only [List.mem_cons, List.not_mem_nil, or_false] at h'
          rcases h' with h' | h'
          · exact Event.controlRead.inj h'
          · simp at h'
      subst hd
      refine ⟨roundEvents ev0 nx tbl s.eval_func_kwargs
          (ext.eval_func tbl s.eval_func_kwargs) ++
          ckptEvents cfg { tellRes s nx (ext.eval_func tbl s.eval_func_kwargs) with
                           success := false } ++ diagEvents cfg,
        postState s nx (ext.eval_func tbl s.eval_func_kwargs),
        he, rfl, ?_, ?_, ho⟩
      · intro d' hm'
        rcases List.mem_append.mp hm' with h' | h'
        · rcases List.mem_append.mp h' with h' | h'
          · unfold roundEvents at h'
            rcases List.mem_append.mp h' with h' | h'
            · exact hev0 d' h'
            · simp at h'
          · rcases mem_ckptEvents.mp h' with ⟨_, h'⟩
            simp at h'
        · rcases mem_diagEvents.mp h' with ⟨_, h'⟩
          simp at h'
      · rcases hch with ⟨hev0, _⟩ | ⟨hev0, _⟩ <;> subst hev0
        · refine ⟨[Event.proposed nx, Event.tableBuilt tbl,
            Event.evalCalled tbl s.eval_func_kwargs,
            Event.tellDone nx (ext.eval_func tbl s.eval_func_kwargs)] ++
            ckptEvents cfg { tellRes s nx (ext.eval_func tbl s.eval_func_kwargs) with
                             success := false } ++ diagEvents cfg,
            by simp [roundEvents], ?_, ?_, ?_, ?_⟩
          · intro c cnt hm'
            rcases List.mem_append.mp hm' with h' | h'
            · rcases List.mem_append.mp h' with h' | h'
              · simp at h'
              · rcases mem_ckptEvents.mp h' with ⟨_, h'⟩
                simp at h'
            · rcases mem_diagEvents.mp h' with ⟨_, h'⟩
              simp at h'
          · exact ⟨nx, ext.eval_func tbl s.eval_func_kwargs, by simp⟩
          · intro hp
            refine ⟨{ tellRes s nx (ext.eval_func tbl s.eval_func_kwargs) with
              success := false }, ?_⟩
            exact List.mem_append.mpr (Or.inl (List.mem_append.mpr (Or.inr
              (by rw [ckptEvents_isSome hp]; simp))))
          · intro hdim
            exact List.mem_append.mpr (Or.inr (by rw [diagEvents_pos hdim]; simp))
        · refine ⟨[Event.askIssued s.n_cores, Event.proposed nx, Event.tableBuilt tbl,
            Event.evalCalled tbl s.eval_func_kwargs,
            Event.tellDone nx (ext.eval_func tbl s.eval_func_kwargs)] ++
            ckptEvents cfg { tellRes s nx (ext.eval_func tbl s.eval_func_kwargs) with
                             success := false } ++ diagEvents cfg,
            by simp [roundEvents], ?_, ?_, ?_, ?_⟩
          · intro c cnt hm'
            rcases List.mem_append.mp hm' with h' | h'
            · rcases List.mem_append.mp h' with h' | h'
              · simp at h'
              · rcases mem_ckptEvents.mp h' with ⟨_, h'⟩
                simp at h'
            · rcases mem_diagEvents.mp h' with ⟨_, h'⟩
              simp at h'
          · exact ⟨nx, ext.eval_func tbl s.eval_func_kwargs, by simp⟩
          · intro hp
            refine ⟨{ tellRes s nx (ext.eval_func tbl s.eval_func_kwargs) with
              success := false }, ?_⟩
            exact List.mem_append.mpr (Or.inl (List.mem_append.mpr (Or.inr
              (by rw [ckptEvents_isSome hp]; simp))))
          · intro hdim
            exact List.mem_append.mpr (Or.inr (by rw [diagEvents_pos hdim]; simp))

theorem runLoop_control_read {cfg : Config} {ext : Externals} :
    ∀ (fuel : Nat) (s : LoopState) (ev : List Event) (out : RunOut)
      (l₁ l₂ : List Event) (d : OptDoc),
      runLoop cfg ext fuel s = (ev, out) →
      ev = l₁ ++ Event.controlRead d :: l₂ →
      ∃ s3 l₂',
        l₂ = Event.controlWritten (writtenDoc s3 d) :: l₂' ∧
        (d.kill.getD false = true → l₂' = [] ∧ out = RunOut.killed (applyDoc s3 d)) ∧
        (∃ l₁a c cnt mid, l₁ = l₁a ++ Event.roundStarted c cnt :: mid ∧
          (∀ c' cnt', Event.roundStarted c' cnt' ∉ mid) ∧
          (∃ nx ny, Event.tellDone nx ny ∈ mid) ∧
          (cfg.plots_dir.isSome = true → ∃ r, Event.checkpointWritten r ∈ mid) ∧
          (1 < cfg.dim_names.length → Event.diagnosticsDone ∈ mid)) := by
  intro fuel
  induction fuel with
  | zero =>
    intro s ev out l₁ l₂ d h hsplit
    simp only [runLoop, Prod.mk.injEq] at h
    obtain ⟨he, _⟩ := h
    rw [← he] at hsplit
    simp at hsplit
  | succ fuel ih =>
    intro s ev out l₁ l₂ d h hsplit
    by_cases hlt : s.count < cfg.n_calls
    · rcases hstep : stepRound cfg ext s with ⟨ev₀, out₀⟩
      cases out₀ with
      | continue_ s1 =>
        rw [runLoop_succ_continue hlt hstep] at h
        rcases hrec : runLoop cfg ext fuel s1 with ⟨ev1, out1⟩
        rw [hrec] at h
        simp only [Prod.mk.injEq] at h
        obtain ⟨he, ho⟩ := h
        have hsp : ev₀ ++ ev1 = l₁ ++ Event.controlRead d :: l₂ := he.trans hsplit
        rcases append_eq_split hsp with ⟨t, h3, h4⟩ | ⟨t, h3, h4⟩
        · have hm : Event.controlRead d ∈ ev₀ := by
            rw [h3]
            exact List.mem_append.mpr (Or.inr (List.mem_cons_self _ _))
          obtain ⟨pre, s3, hshape, hnc, hpre, ⟨mid, hmid, hmidR, hmidT, hmidC, hmidD⟩,
            hout⟩ := step_read_shape hstep hm
          obtain ⟨_, hl1, ht⟩ := split_read_pair (hshape.symm.trans h3) hpre
            (fun d' => by simp)
          refine ⟨s3, ev1, by rw [h4, ht]; rfl, ?_,
            ⟨[], s.round_, s.count, mid, by rw [hl1, hmid]; rfl,
             hmidR, hmidT, hmidC, hmidD⟩⟩
          intro hk
          rw [if_pos hk] at hout
          simp at hout
        · obtain ⟨s3, l₂', hw, hk, ⟨l₁a, c, cnt, mid, hla, hrest⟩⟩ :=
            ih s1 ev1 out1 t l₂ d hrec h4
          refine ⟨s3, l₂', hw, ?_,
            ⟨ev₀ ++ l₁a, c, cnt, mid, by rw [h3, hla, List.append_assoc], hrest⟩⟩
          intro hkill
          obtain ⟨h5, h6⟩ := hk hkill
          exact ⟨h5, ho ▸ h6⟩
      | converged s1 =>
        rw [runLoop_succ_converged hlt hstep] at h
        obtain he : ev₀ = ev := congrArg Prod.fst h
        have hm : Event.controlRead d ∈ ev₀ := by
          rw [he, hsplit]
          exact List.mem_append.mpr (Or.inr (List.mem_cons_self _ _))
        obtain ⟨mid, nx, tbl, ny, he0, hmid⟩ := step_converged_shape hstep
        rw [he0] at hm
        rcases hmid with h1 | h1 <;> subst h1 <;> simp at hm
      | killed s1 =>
        rw [runLoop_succ_killed hlt hstep] at h
        simp only [Prod.mk.injEq] at h
        obtain ⟨he, ho⟩ := h
        have hm : Event.controlRead d ∈ ev₀ := by
          rw [he, hsplit]
          exact List.mem_append.mpr (Or.inr (List.mem_cons_self _ _))
        obtain ⟨pre, s3, hshape, hnc, hpre, ⟨mid, hmid, hmidR, hmidT, hmidC, hmidD⟩,
          hout⟩ := step_read_shape hstep hm
        obtain ⟨_, hl1, ht⟩ := split_read_pair
          (hshape.symm.trans (he.trans hsplit)) hpre (fun d' => by simp)
        by_cases hkd : d.kill.getD false = true
        · rw [if_pos hkd] at hout
          obtain rfl : s1 = applyDoc s3 d := StepOut.killed.inj hout
          exact ⟨s3, [], by rw [ht], fun _ => ⟨rfl, ho.symm⟩,
            ⟨[], s.round_, s.count, mid, by rw [hl1, hmid]; rfl,
             hmidR, hmidT, hmidC, hmidD⟩⟩
        · rw [if_neg hkd] at hout
          simp at hout
      | error_ k s1 =>
        rw [runLoop_succ_error hlt hstep] at h
        obtain he : ev₀ = ev := congrArg Prod.fst h
        refine absurd ?_ (step_error_no_read hstep d)
        rw [he, hsplit]
        exact List.mem_append.mpr (Or.inr (List.mem_cons_self _ _))
    · rw [runLoop_succ_ge hlt] at h
      simp only [Prod.mk.injEq] at h
      obtain ⟨he, _⟩ := h
      rw [← he] at hsplit
      simp at hsplit

/-- C2: in any run, a control read that yields `kill: true` ends the
loop: the only event after it is the paired document rewrite (in
particular no further `ask` and no further proposal), the run outcome
is KILLED, and within the killing round — after its `roundStarted`,
before the read — the `tell` has been recorded, the checkpoint has been
written whenever a plots directory is configured, and the diagnostics
have run whenever the space has more than one dimension.  A kill
request therefore never discards the round's results. -/
theorem c2_kill_terminates (cfg : Config) (ext : Externals) (fuel : Nat)
    (s : LoopState) (ev : List Event) (out : RunOut) (l₁ : List Event)
    (d : OptDoc) (l₂ : List Event)
    (h : runLoop cfg ext fuel s = (ev, out))
    (hsplit : ev = l₁ ++ Event.controlRead d :: l₂)
    (hkill : d.kill = some true) :
    (∃ s3, l₂ = [Event.controlWritten (writtenDoc s3 d)] ∧
      out = RunOut.killed (applyDoc s3 d)) ∧
    (∀ n, Event.askIssued n ∉ l₂) ∧
    (∀ p, Event.proposed p ∉ l₂) ∧
    (∃ l₁a c cnt mid, l₁ = l₁a ++ Event.roundStarted c cnt :: mid ∧
      (∀ c' cnt', Event.roundStarted c' cnt' ∉ mid) ∧
      (∃ nx ny, Event.tellDone nx ny ∈ mid) ∧
      (cfg.plots_dir.isSome = true → ∃ r, Event.checkpointWritten r ∈ mid) ∧
      (1 < cfg.dim_names.length → Event.diagnosticsDone ∈ mid)) := by
  obtain ⟨s3, l₂', hw, hk, hround⟩ :=
    runLoop_control_read fuel s ev out l₁ l₂ d h hsplit
  have hkd : d.kill.getD false = true := by rw [hkill]; rfl
  obtain ⟨hl2, hout⟩ := hk hkd
  subst hl2
  refine ⟨⟨s3, hw, hout⟩, ?_, ?_, hround⟩
  · intro n hm
    rw [hw] at hm
    simp at hm
  · intro p hm
    rw [hw] at hm
    simp at hm

/-- Witness for C2: the concrete one-round run whose control document
requests a kill after the round's tell, checkpoint and diagnostics. -/
theorem c2_kill_terminates_witness :
    (∃ s3,
      [Event.controlWritten ⟨some 1, some false, some [], none, some false⟩] =
        [Event.controlWritten (writtenDoc s3 docKill)] ∧
      RunOut.killed (applyDoc (postState (initState [] [] 1) [[0, 0]] [5]) docKill) =
        RunOut.killed (applyDoc s3 docKill)) ∧
    (∀ n, Event.askIssued n ∉
      [Event.controlWritten ⟨some 1, some false, some [], none, some false⟩]) ∧
    (∀ p, Event.proposed p ∉
      [Event.controlWritten ⟨some 1, some false, some [], none, some false⟩]) ∧
    (∃ l₁a c cnt mid,
      [Event.roundStarted 1 0, Event.askIssued 1, Event.proposed [[0, 0]],
       Event.tableBuilt ⟨["a", "b"], [[0, 0]]⟩,
       Event.evalCalled ⟨["a", "b"], [[0, 0]]⟩ [],
       Event.tellDone [[0, 0]] [5], Event.checkpointWritten ⟨5, 1, false⟩,
       Event.diagnosticsDone] = l₁a ++ Event.roundStarted c cnt :: mid ∧
      (∀ c' cnt', Event.roundStarted c' cnt' ∉ mid) ∧
      (∃ nx ny, Event.tellDone nx ny ∈ mid) ∧
      (cfg2.plots_dir.isSome = true → ∃ r, Event.checkpointWritten r ∈ mid) ∧
      (1 < cfg2.dim_names.length → Event.diagnosticsDone ∈ mid)) :=
  c2_kill_terminates cfg2 extKill 4 (initState [] [] 1)
    ([Event.roundStarted 1 0, Event.askIssued 1, Event.proposed [[0, 0]],
      Event.tableBuilt ⟨["a", "b"], [[0, 0]]⟩,
      Event.evalCalled ⟨["a", "b"], [[0, 0]]⟩ [],
      Event.tellDone [[0, 0]] [5], Event.checkpointWritten ⟨5, 1, false⟩,
      Event.diagnosticsDone] ++ Event.controlRead docKill ::
      [Event.controlWritten ⟨some 1, some false, some [], none, some false⟩])
    (RunOut.killed (applyDoc (postState (initState [] [] 1) [[0, 0]] [5]) docKill))
    [Event.roundStarted 1 0, Event.askIssued 1, Event.proposed [[0, 0]],
     Event.tableBuilt ⟨["a", "b"], [[0, 0]]⟩,
     Event.evalCalled ⟨["a", "b"], [[0, 0]]⟩ [],
     Event.tellDone [[0, 0]] [5], Event.checkpointWritten ⟨5, 1, false⟩,
     Event.diagnosticsDone] docKill
    [Event.controlWritten ⟨some 1, some false, some [], none, some false⟩]
    (by decide) rfl rfl

/-- C7: in any run, every successful control read is immediately
followed by a rewrite of the document in which `user_ask` and `kill`
are reset to false while every other field present in the read document
keeps its value verbatim — a `user_ask` or `kill` request is a
single-round pulse. -/
theorem c7_control_rewrite (cfg : Config) (ext : Externals) (fuel : Nat)
    (s : LoopState) (ev : List Event) (out : RunOut) (l₁ : List Event)
    (d : OptDoc) (l₂ : List Event)
    (h : runLoop cfg ext fuel s = (ev, out))
    (hsplit : ev = l₁ ++ Event.controlRead d :: l₂) :
    ∃ dw l₂', l₂ = Event.controlWritten dw :: l₂' ∧
      dw.user_ask = some false ∧
      dw.kill = some false ∧
      (∀ v, d.n_cores = some v → dw.n_cores = some v) ∧
      (∀ v, d.user_range_prod = some v → dw.user_range_prod = some v) ∧
      (∀ v, d.eval_func_kwargs = some v → dw.eval_func_kwargs = some v) := by
  obtain ⟨s3, l₂', hw, _, _⟩ :=
    runLoop_control_read fuel s ev out l₁ l₂ d h hsplit
  refine ⟨writtenDoc s3 d, l₂', hw, rfl, rfl, ?_, ?_, ?_⟩
  · intro v hv
    simp [writtenDoc, rewriteDoc, hv]
  · intro v hv
    simp [writtenDoc, rewriteDoc, hv]
  · intro v hv
    by_cases hua : d.user_ask.getD false = true <;>
      simp [writtenDoc, rewriteDoc, hua, hv]

/-- Witness for C7: the concrete kill-run's read is followed by a
rewrite with the transient flags reset. -/
theorem c7_control_rewrite_witness :
    ∃ dw l₂',
      ([Event.controlWritten ⟨some 1, some false, some [], none, some false⟩] :
          List Event) = Event.controlWritten dw :: l₂' ∧
      dw.user_ask = some false ∧
      dw.kill = some false ∧
      (∀ v, docKill.n_cores = some v → dw.n_cores = some v) ∧
      (∀ v, docKill.user_range_prod = some v → dw.user_range_prod = some v) ∧
      (∀ v, docKill.eval_func_kwargs = some v → dw.eval_func_kwargs = some v) :=
  c7_control_rewrite cfg2 extKill 4 (initState [] [] 1)
    ([Event.roundStarted 1 0, Event.askIssued 1, Event.proposed [[0, 0]],
      Event.tableBuilt ⟨["a", "b"], [[0, 0]]⟩,
      Event.evalCalled ⟨["a", "b"], [[0, 0]]⟩ [],
      Event.tellDone [[0, 0]] [5], Event.checkpointWritten ⟨5, 1, false⟩,
      Event.diagnosticsDone] ++ Event.controlRead docKill ::
      [Event.controlWritten ⟨some 1, some false, some [], none, some false⟩])
    (RunOut.killed (applyDoc (postState (initState [] [] 1) [[0, 0]] [5]) docKill))
    [Event.roundStarted 1 0, Event.askIssued 1, Event.proposed [[0, 0]],
     Event.tableBuilt ⟨["a", "b"], [[0, 0]]⟩,
     Event.evalCalled ⟨["a", "b"], [[0, 0]]⟩ [],
     Event.tellDone [[0, 0]] [5], Event.checkpointWritten ⟨5, 1, false⟩,
     Event.diagnosticsDone] docKill
    [Event.controlWritten ⟨some 1, some false, some [], none, some false⟩]
    (by decide) rfl

theorem split_eval_unique {A B p q : List Event} {t t₀ : ParamTable}
    {kw kw₀ : Kwargs}
    (h : A ++ Event.evalCalled t₀ kw₀ :: B = p ++ Event.evalCalled t kw :: q)
    (hA : ∀ t' k', Event.evalCalled t' k' ∉ A) :
    (t = t₀ ∧ kw = kw₀ ∧ p = A ∧ q = B) ∨
    (∃ B₁, B = B₁ ++ Event.evalCalled t kw :: q ∧ p = A ++ Event.evalCalled t₀ kw₀ :: B₁) := by
  have h' : A ++ (Event.evalCalled t₀ kw₀ :: B) = p ++ Event.evalCalled t kw :: q := h
  rcases append_eq_split h' with ⟨u, h3, h4⟩ | ⟨u, h3, h4⟩
  · exact absurd (h3 ▸ List.mem_append.mpr (Or.inr (List.mem_cons_self _ _)))
      (hA t kw)
  · cases u with
    | nil =>
      obtain ⟨h5, h6⟩ := List.cons.inj h4
      obtain ⟨rfl, rfl⟩ : t₀ = t ∧ kw₀ = kw := by
        have := Event.evalCalled.inj h5
        exact ⟨this.1, this.2⟩
      exact Or.inl ⟨rfl, rfl, by rw [h3]; simp, h6.symm⟩
    | cons e u' =>
      obtain ⟨h5, h6⟩ := List.cons.inj h4
      exact Or.inr ⟨u', h6, by rw [h3, h5]⟩

theorem step_eval_aux {ev0 B p q : List Event} {nx : List Point}
    {tbl : ParamTable} {kw0 kw : Kwargs} {t : ParamTable}
    (hev0e : ∀ t' k', Event.evalCalled t' k' ∉ ev0)
    (hev0r : ∀ d, Event.controlRead d ∉ ev0)
    (hB : ∀ t' k', Event.evalCalled t' k' ∉ B)
    (hsp : (ev0 ++ [Event.proposed nx, Event.tableBuilt tbl]) ++
        Event.evalCalled tbl kw0 :: B = p ++ Event.evalCalled t kw :: q) :
    kw = kw0 ∧ ∀ d, Event.controlRead d ∉ p := by
  have hA : ∀ t' k', Event.evalCalled t' k' ∉
      ev0 ++ [Event.proposed nx, Event.tableBuilt tbl] := by
    intro t' k' hm
    rcases List.mem_append.mp hm with h' | h'
    · exact hev0e t' k' h'
    · simp at h'
  rcases split_eval_unique hsp hA with ⟨_, hkw, hp, _⟩ | ⟨B₁, hB₁, _⟩
  · subst hp
    refine ⟨hkw, fun d hm => ?_⟩
    rcases List.mem_append.mp hm with h' | h'
    · exact hev0r d h'
    · simp at h'
  · exact absurd (hB₁ ▸ List.mem_append.mpr (Or.inr (List.mem_cons_self _ _)))
      (hB t kw)

theorem step_eval_position {cfg : Config} {ext : Externals} {s : LoopState}
    {ev : List Event} {out : StepOut} {p q : List Event} {t : ParamTable}
    {kw : Kwargs} (h : stepRound cfg ext s = (ev, out))
    (hsplit : ev = p ++ Event.evalCalled t kw :: q) :
    kw = s.eval_func_kwargs ∧ ∀ d, Event.controlRead d ∉ p := by
  rcases stepRound_master h with ⟨_, _, he, _⟩ | ⟨ev0, nx, hch, hbody⟩
  · rw [he] at hsplit
    have hm : Event.evalCalled t kw ∈ ([Event.roundStarted s.round_ s.count,
        Event.askIssued s.n_cores] : List Event) := by
      rw [hsplit]
      exact List.mem_append.mpr (Or.inr (List.mem_cons_self _ _))
    simp at hm
  · have hev0e : ∀ t' k', Event.evalCalled t' k' ∉ ev0 := by
      rcases hch with ⟨hev0, _⟩ | ⟨hev0, _⟩ <;> subst hev0 <;> simp
    have hev0r : ∀ d, Event.controlRead d ∉ ev0 := by
      rcases hch with ⟨hev0, _⟩ | ⟨hev0, _⟩ <;> subst hev0 <;> simp
    rcases hbody with ⟨hmk, he, ho⟩ | ⟨tbl, hmk, hlen, he, ho⟩ |
      ⟨tbl, hmk, hlen, hc, he, ho⟩ | ⟨tbl, hmk, hlen, hc, hcr, he, ho⟩ |
      ⟨tbl, hmk, hlen, hc, hcr, hrd, he, ho⟩ | ⟨tbl, d', hmk, hlen, hc, hcr, hrd, he, ho⟩
    · rw [he] at hsplit
      have hm : Event.evalCalled t kw ∈ ev0 ++ [Event.proposed nx] := by
        rw [hsplit]
        exact List.mem_append.mpr (Or.inr (List.mem_cons_self _ _))
      rcases List.mem_append.mp hm with h' | h'
      · exact absurd h' (hev0e t kw)
      · simp at h'
    · have hsp : (ev0 ++ [Event.proposed nx, Event.tableBuilt tbl]) ++
          Event.evalCalled tbl s.eval_func_kwargs :: ([] : List Event) =
          p ++ Event.evalCalled t kw :: q := by
        rw [← hsplit, he]
        simp [List.append_assoc]
      exact step_eval_aux hev0e hev0r (by simp) hsp
    · have hsp : (ev0 ++ [Event.proposed nx, Event.tableBuilt tbl]) ++
          Event.evalCalled tbl s.eval_func_kwargs ::
            [Event.tellDone nx (ext.eval_func tbl s.eval_func_kwargs)] =
          p ++ Event.evalCalled t kw :: q := by
        rw [← hsplit, he]
        simp [roundEvents, List.append_assoc]
      exact step_eval_aux hev0e hev0r (by simp) hsp
    · have hsp : (ev0 ++ [Event.proposed nx, Event.tableBuilt tbl]) ++
          Event.evalCalled tbl s.eval_func_kwargs ::
            (Event.tellDone nx (ext.eval_func tbl s.eval_func_kwargs) ::
             ckptEvents cfg { tellRes s nx (ext.eval_func tbl s.eval_func_kwargs) with
                              success := false }) =
          p ++ Event.evalCalled t kw :: q := by
        rw [← hsplit, he]
        simp [roundEvents, List.append_assoc]
      refine step_eval_aux hev0e hev0r ?_ hsp
      intro t' k' hm
      simp only [List.mem_cons] at hm
      rcases hm with h' | h'
      · simp at h'
      · rcases mem_ckptEvents.mp h' with ⟨_, h'⟩
        simp at h'
    · have hsp : (ev0 ++ [Event.proposed nx, Event.tableBuilt tbl]) ++
          Event.evalCalled tbl s.eval_func_kwargs ::
            (Event.tellDone nx (ext.eval_func tbl s.eval_func_kwargs) ::
             (ckptEvents cfg { tellRes s nx (ext.eval_func tbl s.eval_func_kwargs) with
                               success := false } ++ diagEvents cfg)) =
          p ++ Event.evalCalled t kw :: q := by
        rw [← hsplit, he]
        simp [roundEvents, List.append_assoc]
      refine step_eval_aux hev0e hev0r ?_ hsp
      intro t' k' hm
      simp only [List.mem_cons] at hm
      rcases hm with h' | h'
      · simp at h'
      · rcases List.mem_append.mp h' with h' | h'
        · rcases mem_ckptEvents.mp h' with ⟨_, h'⟩
          simp at h'
        · rcases mem_diagEvents.mp h' with ⟨_, h'⟩
          simp at h'
    · have hsp : (ev0 ++ [Event.proposed nx, Event.tableBuilt tbl]) ++
          Event.evalCalled tbl s.eval_func_kwargs ::
            (Event.tellDone nx (ext.eval_func tbl s.eval_func_kwargs) ::
             (ckptEvents cfg { tellRes s nx (ext.eval_func tbl s.eval_func_kwargs) with
                               success := false } ++ diagEvents cfg ++
              [Event.controlRead d',
               Event.controlWritten (writtenDoc
                 (postState s nx (ext.eval_func tbl s.eval_func_kwargs)) d')])) =
          p ++ Event.evalCalled t kw :: q := by
        rw [← hsplit, he]
        simp [roundEvents, List.append_assoc]
      refine step_eval_aux hev0e hev0r ?_ hsp
      intro t' k' hm
      simp only [List.mem_cons] at hm
      rcases hm with h' | h'
      · simp at h'
      · rcases List.mem_append.mp h' with h' | h'
        · rcases List.mem_append.mp h' with h' | h'
          · rcases mem_ckptEvents.mp h' with ⟨_, h'⟩
            simp at h'
          · rcases mem_diagEvents.mp h' with ⟨_, h'⟩
            simp at h'
        · simp at h'

theorem lastReadD_read_pair (acc : Option OptDoc) (d : OptDoc) (w : Event)
    (hw : ∀ d', w ≠ Event.controlRead d') :
    lastReadD acc [Event.controlRead d, w] = some d := by
  cases w <;> first | rfl | exact absurd rfl (hw _)

theorem step_kwargs {cfg : Config} {ext : Externals} {s s1 : LoopState}
    {ev : List Event} {r0 : Option OptDoc}
    (h : stepRound cfg ext s = (ev, StepOut.continue_ s1))
    (hs : s.eval_func_kwargs = kwargsOf r0) :
    s1.eval_func_kwargs = kwargsOf (lastReadD r0 ev) := by
  rcases stepRound_master h with ⟨_, _, _, ho⟩ | ⟨ev0, nx, hch, hbody⟩
  · simp at ho
  · have hev0r : ∀ d, Event.controlRead d ∉ ev0 := by
      rcases hch with ⟨hev0, _⟩ | ⟨hev0, _⟩ <;> subst hev0 <;> simp
    rcases hbody with ⟨hmk, he, ho⟩ | ⟨tbl, hmk, hlen, he, ho⟩ |
      ⟨tbl, hmk, hlen, hc, he, ho⟩ | ⟨tbl, hmk, hlen, hc, hcr, he, ho⟩ |
      ⟨tbl, hmk, hlen, hc, hcr, hrd, he, ho⟩ | ⟨tbl, d, hmk, hlen, hc, hcr, hrd, he, ho⟩
    · obtain rfl : s1 = s := StepOut.continue_.inj ho
      rw [he, lastReadD_no_reads ?hnr r0]
      · exact hs
      · intro d hm
        rcases List.mem_append.mp hm with h' | h'
        · exact hev0r d h'
        · simp at h'
    · simp at ho
    · simp at ho
    · simp at ho
    · obtain rfl : s1 = postState s nx (ext.eval_func tbl s.eval_func_kwargs) :=
        StepOut.continue_.inj ho
      rw [he, lastReadD_no_reads ?hnr2 r0]
      · exact hs
      · intro d hm
        rcases List.mem_append.mp hm with h' | h'
        · rcases List.mem_append.mp h' with h' | h'
          · unfold roundEvents at h'
            rcases List.mem_append.mp h' with h' | h'
            · exact hev0r d h'
            · simp at h'
          · rcases mem_ckptEvents.mp h' with ⟨_, h'⟩
            simp at h'
        · rcases mem_diagEvents.mp h' with ⟨_, h'⟩
          simp at h'
    · by_cases hk : d.kill.getD false = true
      · rw [if_pos hk] at ho
        simp at ho
      · rw [if_neg hk] at ho
        obtain rfl : s1 = applyDoc (postState s nx
            (ext.eval_func tbl s.eval_func_kwargs)) d :=
          StepOut.continue_.inj ho
        rw [he, lastReadD_append, lastReadD_read_pair _ _ _ (fun d' => by simp)]
        rfl

/-- C10: the extra evaluation kwargs passed to the evaluation routine
in any round are exactly those dictated by the most recent successful
control read before that round (`kwargsOf`): the document's
`eval_func_kwargs` if that read had `user_ask: true`, and the empty set
if it had `user_ask` false or if no read has happened yet (lines
786-788, 817, 880-884). -/
theorem c10_kwargs_pulse (cfg : Config) (ext : Externals) :
    ∀ (fuel : Nat) (s : LoopState) (ev : List Event) (out : RunOut)
      (r0 : Option OptDoc),
      runLoop cfg ext fuel s = (ev, out) →
      s.eval_func_kwargs = kwargsOf r0 →
      ∀ p t kw q, ev = p ++ Event.evalCalled t kw :: q →
        kw = kwargsOf (lastReadD r0 p) := by
  intro fuel
  induction fuel with
  | zero =>
    intro s ev out r0 h hs p t kw q hsplit
    simp only [runLoop, Prod.mk.injEq] at h
    obtain ⟨he, _⟩ := h
    rw [← he] at hsplit
    simp at hsplit
  | succ fuel ih =>
    intro s ev out r0 h hs p t kw q hsplit
    by_cases hlt : s.count < cfg.n_calls
    · rcases hstep : stepRound cfg ext s with ⟨ev₀, out₀⟩
      have hleft : ∀ tt, ev₀ = p ++ Event.evalCalled t kw :: tt →
          kw = kwargsOf (lastReadD r0 p) := by
        intro tt h3
        obtain ⟨hkw, hnr⟩ := step_eval_position hstep h3
        rw [hkw, hs, lastReadD_no_reads hnr r0]
      cases out₀ with
      | continue_ s1 =>
        rw [runLoop_succ_continue hlt hstep] at h
        rcases hrec : runLoop cfg ext fuel s1 with ⟨ev1, out1⟩
        rw [hrec] at h
        simp only [Prod.mk.injEq] at h
        obtain ⟨he, ho⟩ := h
        have hsp : ev₀ ++ ev1 = p ++ Event.evalCalled t kw :: q := he.trans hsplit
        rcases append_eq_split hsp with ⟨tt, h3, _⟩ | ⟨tt, h3, h4⟩
        · exact hleft tt h3
        · have hs1 : s1.eval_func_kwargs = kwargsOf (lastReadD r0 ev₀) :=
            step_kwargs hstep hs
          have := ih s1 ev1 out1 (lastReadD r0 ev₀) hrec hs1 tt t kw q h4
          rw [h3, lastReadD_append]
          exact this
      | converged s1 =>
        rw [runLoop_succ_converged hlt hstep] at h
        simp only [Prod.mk.injEq] at h
        obtain ⟨he, _⟩ := h
        exact hleft q (he.trans hsplit)
      | killed s1 =>
        rw [runLoop_succ_killed hlt hstep] at h
        simp only [Prod.mk.injEq] at h
        obtain ⟨he, _⟩ := h
        exact hleft q (he.trans hsplit)
      | error_ k s1 =>
        rw [runLoop_succ_error hlt hstep] at h
        simp only [Prod.mk.injEq] at h
        obtain ⟨he, _⟩ := h
        exact hleft q (he.trans hsplit)
    · rw [runLoop_succ_ge hlt] at h
      simp only [Prod.mk.injEq] at h
      obtain ⟨he, _⟩ := h
      rw [← he] at hsplit
      simp at hsplit

/-- Witness for C10: in a two-round run whose control document enables
`user_ask` with kwargs, round one evaluates with the empty kwargs (no
read has happened yet) and round two evaluates with the document's
kwargs, as dictated by the most recent read. -/
theorem c10_kwargs_pulse_witness :
    ([("mode", 2)] : Kwargs) =
      kwargsOf (lastReadD none
        [Event.roundStarted 1 0, Event.askIssued 1, Event.proposed [[0]],
         Event.tableBuilt ⟨["x"], [[0]]⟩, Event.evalCalled ⟨["x"], [[0]]⟩ [],
         Event.tellDone [[0]] [5], Event.checkpointWritten ⟨5, 1, false⟩,
         Event.controlRead docKw,
         Event.controlWritten ⟨some 1, some false, some [], some [("mode", 2)], some false⟩,
         Event.roundStarted 2 1, Event.askIssued 1, Event.proposed [[0]],
         Event.tableBuilt ⟨["x"], [[0]]⟩]) :=
  c10_kwargs_pulse cfgC10 extKw 5 (initState [] [] 1)
    ([Event.roundStarted 1 0, Event.askIssued 1, Event.proposed [[0]],
      Event.tableBuilt ⟨["x"], [[0]]⟩, Event.evalCalled ⟨["x"], [[0]]⟩ [],
      Event.tellDone [[0]] [5], Event.checkpointWritten ⟨5, 1, false⟩,
      Event.controlRead docKw,
      Event.controlWritten ⟨some 1, some false, some [], some [("mode", 2)], some false⟩,
      Event.roundStarted 2 1, Event.askIssued 1, Event.proposed [[0]],
      Event.tableBuilt ⟨["x"], [[0]]⟩] ++
      Event.evalCalled ⟨["x"], [[0]]⟩ [("mode", 2)] ::
      [Event.tellDone [[0]] [5], Event.checkpointWritten ⟨5, 2, false⟩,
       Event.controlRead docKw,
       Event.controlWritten ⟨some 1, some false, some [], some [("mode", 2)], some false⟩])
    (runLoop cfgC10 extKw 5 (initState [] [] 1)).2 none (by decide) rfl
    [Event.roundStarted 1 0, Event.askIssued 1, Event.proposed [[0]],
     Event.tableBuilt ⟨["x"], [[0]]⟩, Event.evalCalled ⟨["x"], [[0]]⟩ [],
     Event.tellDone [[0]] [5], Event.checkpointWritten ⟨5, 1, false⟩,
     Event.controlRead docKw,
     Event.controlWritten ⟨some 1, some false, some [], some [("mode", 2)], some false⟩,
     Event.roundStarted 2 1, Event.askIssued 1, Event.proposed [[0]],
     Event.tableBuilt ⟨["x"], [[0]]⟩] ⟨["x"], [[0]]⟩ [("mode", 2)]
    [Event.tellDone [[0]] [5], Event.checkpointWritten ⟨5, 2, false⟩,
     Event.controlRead docKw,
     Event.controlWritten ⟨some 1, some false, some [], some [("mode", 2)], some false⟩]
    rfl

theorem proposals_controlPhase (ext : Externals) (s3 : LoopState) :
    proposals (controlPhase ext s3).1 = [] := by
  unfold controlPhase
  cases ext.readDoc s3.round_ <;> simp [proposals]

theorem applyDoc_no_override {nc : Nat} {s3 : LoopState} {d : OptDoc}
    (hn : d.n_cores = none ∨ d.n_cores = some nc)
    (hu : d.user_ask = none ∨ d.user_ask = some false)
    (hr : d.user_range_prod = none ∨ d.user_range_prod = some [])
    (hs : s3.user_ask = false) (hx : s3.user_next_x = [])
    (hk : s3.eval_func_kwargs = []) (hnc : s3.n_cores = nc) :
    applyDoc s3 d = s3 := by
  have h2 : d.user_ask.getD false = false := by
    rcases hu with h' | h' <;> simp [h']
  have h3 : (match convert_user_next_ranges (d.user_range_prod.getD []) with
      | Except.ok v => v
      | Except.error _ => s3.user_next_x) = ([] : List Point) := by
    rcases hr with h' | h' <;> simp [h', convert_user_next_ranges]
  cases s3
  simp only [applyDoc, h2, h3]
  simp_all
  rcases hn with h' | h' <;> simp [h']

theorem controlPhase_out_no_override (s3 : LoopState) {ext : Externals} {nc : Nat}
    (h : NoOverrideRead nc (ext.readDoc s3.round_))
    (hs : s3.user_ask = false) (hx : s3.user_next_x = [])
    (hk : s3.eval_func_kwargs = []) (hnc : s3.n_cores = nc) :
    (controlPhase ext s3).2 = StepOut.continue_ s3 := by
  unfold controlPhase
  cases hrd : ext.readDoc s3.round_ with
  | none => rfl
  | some d =>
    rw [hrd] at h
    obtain ⟨hn, hu, hr, hkl⟩ := h
    have hkill : d.kill.getD false = false := by
      rcases hkl with h' | h' <;> simp [h']
    simp only [hkill, Bool.false_eq_true, if_false]
    rw [applyDoc_no_override hn hu hr hs hx hk hnc]

theorem postState_no_override {nc : Nat} {s : LoopState} {nx : List Point}
    {ny : List Value} (hP : NoOverrideState nc s) :
    NoOverrideState nc (postState s nx ny) := hP

theorem step_no_override {cfg : Config} {ext₁ ext₂ : Externals} {nc : Nat}
    {s : LoopState}
    (hA : ext₁.ask = ext₂.ask) (hE : ext₁.eval_func = ext₂.eval_func)
    (h₁ : NoOverrideRead nc (ext₁.readDoc (s.round_ + 1)))
    (h₂ : NoOverrideRead nc (ext₂.readDoc (s.round_ + 1)))
    (hP : NoOverrideState nc s) :
    (stepRound cfg ext₁ s).2 = (stepRound cfg ext₂ s).2 ∧
    proposals (stepRound cfg ext₁ s).1 = proposals (stepRound cfg ext₂ s).1 ∧
    (∀ s', (stepRound cfg ext₁ s).2 = StepOut.continue_ s' → NoOverrideState nc s') := by
  obtain ⟨hua, hux, huk, hunc⟩ := hP
  have hcond : ¬ (s.user_ask = true ∧ 0 < s.user_next_x.length) := by
    simp [hua]
  cases hask : ext₁.ask s.opt.Xi s.opt.yi s.n_cores with
  | error e =>
    cases e
    have hask₂ : ext₂.ask s.opt.Xi s.opt.yi s.n_cores = Except.error () := by
      rw [← hA]
      exact hask
    have hs₁ : stepRound cfg ext₁ s =
        ([Event.roundStarted s.round_ s.count, Event.askIssued s.n_cores],
         StepOut.error_ ErrKind.askValueError s) := by
      simp [stepRound, hua, hask]
    have hs₂ : stepRound cfg ext₂ s =
        ([Event.roundStarted s.round_ s.count, Event.askIssued s.n_cores],
         StepOut.error_ ErrKind.askValueError s) := by
      simp [stepRound, hua, hask₂]
    rw [hs₁, hs₂]
    exact ⟨rfl, rfl, fun s' h' => by simp at h'⟩
  | ok nx =>
    have hask₂ : ext₂.ask s.opt.Xi s.opt.yi s.n_cores = Except.ok nx := by
      rw [← hA]
      exact hask
    have heq₁ : stepRound cfg ext₁ s = stepWith cfg ext₁ s
        [Event.roundStarted s.round_ s.count, Event.askIssued s.n_cores] nx := by
      simp [stepRound, hua, hask]
    have heq₂ : stepRound cfg ext₂ s = stepWith cfg ext₂ s
        [Event.roundStarted s.round_ s.count, Event.askIssued s.n_cores] nx := by
      simp [stepRound, hua, hask₂]
    rw [heq₁, heq₂]
    cases hmk : mkParamTable nx cfg.dim_names with
    | error e =>
      cases e
      have hs₁ : ∀ ext : Externals, stepWith cfg ext s
          [Event.roundStarted s.round_ s.count, Event.askIssued s.n_cores] nx =
          ([Event.roundStarted s.round_ s.count, Event.askIssued s.n_cores] ++
            [Event.proposed nx], StepOut.continue_ s) := by
        intro ext
        simp [stepWith, hmk]
      rw [hs₁ ext₁, hs₁ ext₂]
      exact ⟨rfl, rfl, fun s' h' => by
        obtain rfl : s' = s := (StepOut.continue_.inj h').symm
        exact ⟨hua, hux, huk, hunc⟩⟩
    | ok tbl =>
      have hny : ext₂.eval_func tbl s.eval_func_kwargs =
          ext₁.eval_func tbl s.eval_func_kwargs := by
        rw [hE]
      by_cases hlen : nx.length = (ext₁.eval_func tbl s.eval_func_kwargs).length
      · -- tell succeeds identically for both
        have hsw : ∀ ext : Externals, ext.eval_func tbl s.eval_func_kwargs =
            ext₁.eval_func tbl s.eval_func_kwargs →
            stepWith cfg ext s
              [Event.roundStarted s.round_ s.count, Event.askIssued s.n_cores] nx =
            ([Event.roundStarted s.round_ s.count, Event.askIssued s.n_cores] ++
              [Event.proposed nx, Event.tableBuilt tbl,
               Event.evalCalled tbl s.eval_func_kwargs,
               Event.tellDone nx (ext₁.eval_func tbl s.eval_func_kwargs)] ++
              (postTell cfg ext
                (toldState s nx (ext₁.eval_func tbl s.eval_func_kwargs))
                (tellRes s nx (ext₁.eval_func tbl s.eval_func_kwargs))).1,
             (postTell cfg ext
               (toldState s nx (ext₁.eval_func tbl s.eval_func_kwargs))
               (tellRes s nx (ext₁.eval_func tbl s.eval_func_kwargs))).2) := by
          intro ext hext
          simp [stepWith, hmk, hext, tell, hlen, toldState, tellRes, bump]
        rw [hsw ext₁ rfl, hsw ext₂ hny]
        set ny := ext₁.eval_func tbl s.eval_func_kwargs with hnydef
        set s3 := toldState s nx ny with hs3
        set r1 := tellRes s nx ny with hr1
        by_cases hc : r1.fun_ < cfg.tol
        · have hpt : ∀ ext : Externals, postTell cfg ext s3 r1 =
              ([], StepOut.converged { s3 with result := some { r1 with success := true } }) := by
            intro ext
            simp [postTell, hc]
          rw [hpt ext₁, hpt ext₂]
          exact ⟨rfl, rfl, fun s' h' => by simp at h'⟩
        · by_cases hcr : 1 < cfg.dim_names.length ∧ cfg.plots_dir = none
          · have hpt : ∀ ext : Externals, postTell cfg ext s3 r1 =
                (ckptEvents cfg { r1 with success := false },
                 StepOut.error_ ErrKind.abspathNoneTypeError
                   { s3 with result := some { r1 with success := false } }) := by
              intro ext
              simp [postTell, hc, hcr.1, hcr.2]
            rw [hpt ext₁, hpt ext₂]
            exact ⟨rfl, rfl, fun s' h' => by simp at h'⟩
          · have hpt : ∀ ext : Externals, postTell cfg ext s3 r1 =
                (ckptEvents cfg { r1 with success := false } ++ diagEvents cfg ++
                  (controlPhase ext { s3 with result := some { r1 with success := false } }).1,
                 (controlPhase ext { s3 with result := some { r1 with success := false } }).2) := by
              intro ext
              simp [postTell, hc, hcr]
            rw [hpt ext₁, hpt ext₂]
            have hP3 : NoOverrideState nc
                { s3 with result := some { r1 with success := false } } :=
              ⟨hua, hux, huk, hunc⟩
            have hout₁ := controlPhase_out_no_override
              { s3 with result := some { r1 with success := false } }
              h₁ hP3.1 hP3.2.1 hP3.2.2.1 hP3.2.2.2
            have hout₂ := controlPhase_out_no_override
              { s3 with result := some { r1 with success := false } }
              h₂ hP3.1 hP3.2.1 hP3.2.2.1 hP3.2.2.2
            refine ⟨by rw [hout₁, hout₂], ?_, ?_⟩
            · simp only [proposals_append, proposals_controlPhase]
            · intro s' h'
              rw [hout₁] at h'
              obtain rfl : s' = { s3 with result := some { r1 with success := false } } :=
                (StepOut.continue_.inj h').symm
              exact hP3
      · -- tell raises identically for both
        have hsw : ∀ ext : Externals, ext.eval_func tbl s.eval_func_kwargs =
            ext₁.eval_func tbl s.eval_func_kwargs →
            stepWith cfg ext s
              [Event.roundStarted s.round_ s.count, Event.askIssued s.n_cores] nx =
            ([Event.roundStarted s.round_ s.count, Event.askIssued s.n_cores] ++
              [Event.proposed nx, Event.tableBuilt tbl,
               Event.evalCalled tbl s.eval_func_kwargs],
             StepOut.error_ ErrKind.tellLengthMismatch (bump s nx.length)) := by
          intro ext hext
          simp [stepWith, hmk, hext, tell, hlen]
        rw [hsw ext₁ rfl, hsw ext₂ hny]
        exact ⟨rfl, rfl, fun s' h' => by simp at h'⟩

/-- C8: two runs with the same engine (same seed and dimension
registry, modelled as the same deterministic `ask` oracle), the same
evaluation routine and configuration, starting from override-free
state, and whose control channels carry no operator override in any
round (document absent, or default-valued for the run's core count),
produce the identical sequence of proposed batches and the identical
outcome. -/
theorem c8_seed_determinism (cfg : Config) (ext₁ ext₂ : Externals) (nc : Nat)
    (hA : ext₁.ask = ext₂.ask) (hE : ext₁.eval_func = ext₂.eval_func)
    (h₁ : ∀ k, NoOverrideRead nc (ext₁.readDoc k))
    (h₂ : ∀ k, NoOverrideRead nc (ext₂.readDoc k)) :
    ∀ (fuel : Nat) (s : LoopState), NoOverrideState nc s →
      proposals (runLoop cfg ext₁ fuel s).1 = proposals (runLoop cfg ext₂ fuel s).1 ∧
      (runLoop cfg ext₁ fuel s).2 = (runLoop cfg ext₂ fuel s).2 := by
  intro fuel
  induction fuel with
  | zero => intro s _; exact ⟨rfl, rfl⟩
  | succ fuel ih =>
    intro s hP
    by_cases hlt : s.count < cfg.n_calls
    · obtain ⟨hout, hprop, hpres⟩ :=
        step_no_override hA hE (h₁ (s.round_ + 1)) (h₂ (s.round_ + 1)) hP
      rcases hstep₁ : stepRound cfg ext₁ s with ⟨ev₁, out₁⟩
      rcases hstep₂ : stepRound cfg ext₂ s with ⟨ev₂, out₂⟩
      rw [hstep₁, hstep₂] at hout hprop
      rw [hstep₁] at hpres
      cases out₁ with
      | continue_ s' =>
        obtain rfl : out₂ = StepOut.continue_ s' := hout.symm
        rw [runLoop_succ_continue hlt hstep₁, runLoop_succ_continue hlt hstep₂]
        obtain ⟨ihp, iho⟩ := ih s' (hpres s' rfl)
        constructor
        · simp only [proposals_append]
          rw [hprop, ihp]
        · exact iho
      | converged s' =>
        obtain rfl : out₂ = StepOut.converged s' := hout.symm
        rw [runLoop_succ_converged hlt hstep₁, runLoop_succ_converged hlt hstep₂]
        exact ⟨hprop, rfl⟩
      | killed s' =>
        obtain rfl : out₂ = StepOut.killed s' := hout.symm
        rw [runLoop_succ_killed hlt hstep₁, runLoop_succ_killed hlt hstep₂]
        exact ⟨hprop, rfl⟩
      | error_ k s' =>
        obtain rfl : out₂ = StepOut.error_ k s' := hout.symm
        rw [runLoop_succ_error hlt hstep₁, runLoop_succ_error hlt hstep₂]
        exact ⟨hprop, rfl⟩
    · rw [runLoop_succ_ge hlt, runLoop_succ_ge hlt]
      exact ⟨rfl, rfl⟩

/-- Witness for C8: an absent control document and an explicitly
default-valued one yield the same proposed batches and outcome. -/
theorem c8_seed_determinism_witness :
    proposals (runLoop cfg3 extPlain 9 (initState [] [] 1)).1 =
      proposals (runLoop cfg3 extDefault 9 (initState [] [] 1)).1 ∧
    (runLoop cfg3 extPlain 9 (initState [] [] 1)).2 =
      (runLoop cfg3 extDefault 9 (initState [] [] 1)).2 :=
  c8_seed_determinism cfg3 extPlain extDefault 1 rfl rfl
    (fun _ => trivial)
    (fun _ => ⟨Or.inr rfl, Or.inr rfl, Or.inr rfl, Or.inr rfl⟩)
    9 (initState [] [] 1) ⟨rfl, rfl, rfl, rfl⟩

end Trnpy
